import Mathlib

/-!
# Verification of the RAG-Sandbox document-ingestion core

Shallow embedding of the PDF ingestion pipeline:
* `src/unnamed/part_005` — guardrail validator, classifier, extraction dispatch
  (`validatePDF`, `classifyPDF`, `estimateOCR`, `extractPDFText`);
* `src/lib/ocr-pipeline.ts` — OCR loop (`performOCR`, `ocrPage`);
* `src/lib/vectorize-pipeline.ts` — normalization, page splitting, chunking and
  incremental vectorization (`normalizeText`, `splitIntoPages`,
  `vectorizeIncrementally`).

Strings are modelled as `List Char`; JavaScript regex replaces are embedded as
recursive functions with the same left-to-right, leftmost-match, greedy
semantics.  External libraries (pdf2json, tesseract, pdf-to-png,
RecursiveCharacterTextSplitter) and the injected embed/store callbacks are
parameters of the model; everything the repository itself computes is
translated from the source.
-/

namespace RagSandbox

/-- JS whitespace class (`\s`, `String.trim`), restricted to the ASCII range
actually reachable here. -/
def isWs (c : Char) : Bool :=
  c = ' ' ∨ c = '\t' ∨ c = '\n' ∨ c = '\r' ∨ c = '\x0c' ∨ c = '\x0b'

/-- Space-or-tab, the class `[ \t]` of `normalizeText`. -/
def isSpTab (c : Char) : Bool := c = ' ' ∨ c = '\t'

/-- JS regex multiline line terminators reachable in this code (`\n`, `\r`). -/
def isLineTerm (c : Char) : Bool := c = '\n' ∨ c = '\r'

/-- `String.prototype.trim()`: drop JS whitespace from both ends. -/
def jsTrim (l : List Char) : List Char :=
  ((l.dropWhile isWs).reverse.dropWhile isWs).reverse

/-- Length of the trimmed text (`p.text.trim().length`). -/
def trimLen (l : List Char) : Nat := (jsTrim l).length

/-! ## `normalizeText` (src/lib/vectorize-pipeline.ts lines 90-97)

```js
text.replace(/\r\n/g, '\n')
    .replace(/\n{3,}/g, '\n\n')
    .replace(/[ \t]+/g, ' ')
    .replace(/^ +| +$/gm, '')
    .trim()
```
-/

/-- `.replace(/\r\n/g, '\n')`. -/
def replCRLF : List Char → List Char
  | '\r' :: '\n' :: rest => '\n' :: replCRLF rest
  | c :: rest => c :: replCRLF rest
  | [] => []

/-- One pass of `.replace(/\n{3,}/g, '\n\n')`.  The flag is set while the
remainder of a matched newline run is being consumed (the greedy regex eats
the whole run; the first three newlines have already been rewritten to two). -/
def collapseNLAux : Bool → List Char → List Char
  | true, '\n' :: rest => collapseNLAux true rest
  | true, c :: rest => c :: collapseNLAux false rest
  | true, [] => []
  | false, '\n' :: '\n' :: '\n' :: rest => '\n' :: '\n' :: collapseNLAux true rest
  | false, c :: rest => c :: collapseNLAux false rest
  | false, [] => []

/-- `.replace(/\n{3,}/g, '\n\n')`: a maximal run of three or more newlines is
replaced by exactly two. -/
def collapseNL (l : List Char) : List Char := collapseNLAux false l

/-- One pass of `.replace(/[ \t]+/g, ' ')`.  The flag is set while the
remainder of a matched space/tab run is being consumed (the run's first
character has already been rewritten to a single space). -/
def collapseSpAux : Bool → List Char → List Char
  | true, c :: rest =>
      if isSpTab c then collapseSpAux true rest
      else c :: collapseSpAux false rest
  | true, [] => []
  | false, c :: rest =>
      if isSpTab c then ' ' :: collapseSpAux true rest
      else c :: collapseSpAux false rest
  | false, [] => []

/-- `.replace(/[ \t]+/g, ' ')`: a maximal run of spaces/tabs becomes one
space. -/
def collapseSp (l : List Char) : List Char := collapseSpAux false l

/-- Drop the spaces (only `' '`, as in the regex `/^ +| +$/`) at both ends of a
single line. -/
def trimSpaces (l : List Char) : List Char :=
  ((l.dropWhile (· = ' ')).reverse.dropWhile (· = ' ')).reverse

/-- The scan of `.replace(/^ +| +$/gm, '')`: the current line is accumulated
in reverse in `acc`; at each line terminator (or at the end) the line's space
edges are dropped. -/
def trimLineEdgesGo (acc : List Char) : List Char → List Char
  | [] => trimSpaces acc.reverse
  | c :: rest =>
      if isLineTerm c then trimSpaces acc.reverse ++ c :: trimLineEdgesGo [] rest
      else trimLineEdgesGo (c :: acc) rest

/-- `.replace(/^ +| +$/gm, '')`: per line (lines delimited by JS line
terminators), remove the run of spaces at the line start and at the line end. -/
def trimLineEdges (l : List Char) : List Char := trimLineEdgesGo [] l

/-- `normalizeText` from src/lib/vectorize-pipeline.ts. -/
def normalizeText (l : List Char) : List Char :=
  jsTrim (trimLineEdges (collapseSp (collapseNL (replCRLF l))))

/-! Observations on strings, used to characterize when `normalizeText` has
reached a fixed point. -/

/-- Does the string contain a carriage-return/newline pair? -/
def hasCRLF : List Char → Bool
  | '\r' :: '\n' :: _ => true
  | _ :: rest => hasCRLF rest
  | [] => false

/-- Does the string contain three consecutive newlines? -/
def hasTripleNL : List Char → Bool
  | '\n' :: '\n' :: '\n' :: _ => true
  | _ :: rest => hasTripleNL rest
  | [] => false

/-- Does some adjacent character pair satisfy `bad`? -/
def hasPair (bad : Char → Char → Bool) : List Char → Bool
  | c :: d :: rest => bad c d || hasPair bad (d :: rest)
  | _ => false

/-- Two adjacent spaces. -/
def dblSpace (c d : Char) : Bool := c = ' ' ∧ d = ' '

/-- A space immediately after a line terminator. -/
def termSpace (c d : Char) : Bool := isLineTerm c ∧ d = ' '

/-- A space immediately before a line terminator. -/
def spaceTerm (c d : Char) : Bool := c = ' ' ∧ isLineTerm d

/-! ## `splitIntoPages` (src/lib/vectorize-pipeline.ts lines 337-403) -/

/-- Extraction source tag (`'pdf2json' | 'ocr' | 'hybrid'`). -/
inductive Src
  | pdf2json
  | ocr
  | hybrid
  deriving DecidableEq, Repr

/-- `PageText` record. -/
structure PageText where
  pageNumber : Nat
  text : List Char
  source : Src
  deriving DecidableEq, Repr

/-- The scan of `text.split(/\n{3,}/)`: the current part is accumulated in
reverse in `acc`; the flag is set while the remainder of a matched newline run
is being consumed. -/
def splitNN3Aux (acc : List Char) : Bool → List Char → List (List Char)
  | true, '\n' :: rest => splitNN3Aux acc true rest
  | true, c :: rest => splitNN3Aux (c :: acc) false rest
  | true, [] => [acc.reverse]
  | false, '\n' :: '\n' :: '\n' :: rest => acc.reverse :: splitNN3Aux [] true rest
  | false, c :: rest => splitNN3Aux (c :: acc) false rest
  | false, [] => [acc.reverse]

/-- `text.split(/\n{3,}/)`: parts separated by maximal runs of three or more
newlines (the greedy regex consumes the whole run). -/
def splitNN3 (l : List Char) : List (List Char) := splitNN3Aux [] false l

/-- The scan of `text.split(/\n\n+/)`, as for `splitNN3Aux` but with runs of
two or more newlines. -/
def splitNN2Aux (acc : List Char) : Bool → List Char → List (List Char)
  | true, '\n' :: rest => splitNN2Aux acc true rest
  | true, c :: rest => splitNN2Aux (c :: acc) false rest
  | true, [] => [acc.reverse]
  | false, '\n' :: '\n' :: rest => acc.reverse :: splitNN2Aux [] true rest
  | false, c :: rest => splitNN2Aux (c :: acc) false rest
  | false, [] => [acc.reverse]

/-- `text.split(/\n\n+/)`: parts separated by maximal runs of two or more
newlines. -/
def splitNN2 (l : List Char) : List (List Char) := splitNN2Aux [] false l

/-- Case-insensitive literal match (the regex has the `i` flag); returns the
remainder on success. -/
def expectCI : List Char → List Char → Option (List Char)
  | [], l => some l
  | _ :: _, [] => none
  | p :: ps, c :: cs => if p.toLower = c.toLower then expectCI ps cs else none

/-- Try to match `(?:\n\n---\s*Page\s*\d+\s*---\n\n|\f)` at the head of the
list; returns the remainder after the match.  Each `\s*` is followed by a
non-whitespace literal, and `\d+` by a non-digit literal, so the greedy
quantifiers never need to backtrack. -/
def matchPageBreakAt : List Char → Option (List Char)
  | '\x0c' :: rest => some rest
  | '\n' :: '\n' :: '-' :: '-' :: '-' :: r1 =>
      (match expectCI ['P', 'a', 'g', 'e'] (r1.dropWhile isWs) with
      | none => none
      | some r3 =>
          if ((r3.dropWhile isWs).takeWhile Char.isDigit).isEmpty then none
          else
            match ((r3.dropWhile isWs).dropWhile Char.isDigit).dropWhile isWs with
            | '-' :: '-' :: '-' :: '\n' :: '\n' :: r7 => some r7
            | _ => none)
  | _ => none

theorem expectCI_length {p l r : List Char} (h : expectCI p l = some r) :
    r.length ≤ l.length := by
  induction p generalizing l with
  | nil =>
      simp only [expectCI, Option.some.injEq] at h
      subst h; exact Nat.le_refl _
  | cons a ps ih =>
      cases l with
      | nil => simp [expectCI] at h
      | cons c cs =>
          simp only [expectCI] at h
          split at h
          · exact Nat.le_trans (ih h) (by simp)
          · exact absurd h (by simp)

theorem matchPageBreakAt_length {l r : List Char}
    (h : matchPageBreakAt l = some r) : r.length < l.length := by
  rw [matchPageBreakAt.eq_def] at h
  split at h
  · rename_i rest
    simp only [Option.some.injEq] at h
    subst h; simp
  · rename_i r1
    split at h
    · exact absurd h (by simp)
    · rename_i r3 hci
      have h3 : r3.length ≤ r1.length :=
        Nat.le_trans (expectCI_length hci)
          (List.dropWhile_sublist isWs).length_le
      split at h
      · exact absurd h (by simp)
      · split at h
        · rename_i r7 heq
          have h6 : ((r3.dropWhile isWs).dropWhile Char.isDigit).length
              ≤ r3.length :=
            Nat.le_trans
              (List.dropWhile_sublist Char.isDigit).length_le
              (List.dropWhile_sublist isWs).length_le
          have h8 : (((r3.dropWhile isWs).dropWhile Char.isDigit).dropWhile
              isWs).length = r7.length + 5 := by rw [heq]; simp
          have h7 : (((r3.dropWhile isWs).dropWhile Char.isDigit).dropWhile
              isWs).length ≤ ((r3.dropWhile isWs).dropWhile Char.isDigit).length :=
            (List.dropWhile_sublist isWs).length_le
          simp only [Option.some.injEq] at h
          subst h
          simp only [List.length_cons]
          omega
        · exact absurd h (by simp)
  · exact absurd h (by simp)

/-- Leftmost match of the page-break pattern: `some (prefix, remainder)` when a
match exists. -/
def findPB : List Char → Option (List Char × List Char)
  | [] => none
  | c :: rest =>
      match matchPageBreakAt (c :: rest) with
      | some after => some ([], after)
      | none =>
          match findPB rest with
          | some (pre, after) => some (c :: pre, after)
          | none => none

theorem findPB_length {l pre after : List Char}
    (h : findPB l = some (pre, after)) : after.length < l.length := by
  induction l generalizing pre after with
  | nil => simp [findPB] at h
  | cons c rest ih =>
      rw [findPB] at h
      split at h
      · rename_i r hm
        simp only [Option.some.injEq, Prod.mk.injEq] at h
        obtain ⟨_, h2⟩ := h
        subst h2
        exact matchPageBreakAt_length hm
      · split at h
        · rename_i p a hf
          simp only [Option.some.injEq, Prod.mk.injEq] at h
          obtain ⟨_, h2⟩ := h
          subst h2
          exact Nat.lt_trans (ih hf) (by simp)
        · exact absurd h (by simp)

/-- `pageBreakPattern.test(text)`. -/
def hasPageBreak (l : List Char) : Bool := (findPB l).isSome

/-- Fuel-indexed scan for `text.split(pageBreakPattern)`; every match consumes
at least one character, so fuel `l.length` never runs out. -/
def splitPageBreakGo : Nat → List Char → List (List Char)
  | 0, l => [l]
  | fuel + 1, l =>
      match findPB l with
      | none => [l]
      | some (pre, after) => pre :: splitPageBreakGo fuel after

/-- `text.split(pageBreakPattern)`: the separators (non-capturing group) are
dropped. -/
def splitPageBreak (l : List Char) : List (List Char) :=
  splitPageBreakGo l.length l

/-- `.map((pageText, idx) => ({ pageNumber: idx + 1, text, source }))`. -/
def numberPages (src : Src) (parts : List (List Char)) : List PageText :=
  parts.enum.map fun p => ⟨p.1 + 1, p.2, src⟩

/-- `.filter(p => p.text.trim().length > 10)`. -/
def dropShort (ps : List PageText) : List PageText :=
  ps.filter fun p => 10 < trimLen p.text

/-- The claim's drop rule: pages whose trimmed text is *under* 10 characters
are dropped (so a page of exactly 10 trimmed characters is kept). -/
def dropUnder10 (ps : List PageText) : List PageText :=
  ps.filter fun p => ¬ trimLen p.text < 10

/-- `TARGET_PAGE_SIZE` of the fallback pseudo-pagination. -/
def TARGET_PAGE_SIZE : Nat := 3000

/-- The fallback loop packing paragraphs greedily into pseudo-pages
(src/lib/vectorize-pipeline.ts lines 384-399). -/
def packLoop (src : Src) (pageNum : Nat) (currentPage : List Char) :
    List (List Char) → List PageText
  | [] =>
      if currentPage.length > 0 then [⟨pageNum, currentPage, src⟩] else []
  | para :: rest =>
      if currentPage.length + para.length > TARGET_PAGE_SIZE ∧
          currentPage.length > 0 then
        ⟨pageNum, currentPage, src⟩ :: packLoop src (pageNum + 1) para rest
      else
        packLoop src pageNum
          (currentPage ++ (if currentPage.isEmpty then [] else ['\n', '\n']) ++ para)
          rest

/-- `splitIntoPages` (src/lib/vectorize-pipeline.ts lines 337-403). -/
def splitIntoPages (src : Src) (text : List Char) : List PageText :=
  -- (source === 'ocr'): try runs of 3+ newlines first
  if src = Src.ocr ∧ (splitNN3 text).length > 1 then
    dropShort (numberPages src (splitNN3 text))
  -- text.includes('\f')
  else if text.contains '\x0c' then
    dropShort (numberPages src (text.splitOn '\x0c'))
  -- pageBreakPattern.test(text)
  else if hasPageBreak text then
    dropShort (numberPages src (splitPageBreak text))
  -- fallback: pseudo-pages
  else if text.length ≤ TARGET_PAGE_SIZE then
    dropShort [⟨1, text, src⟩]
  else
    dropShort (packLoop src 1 [] (splitNN2 text))

/-- `splitIntoPages` as claim C7 orders the strategies — (a) form feeds first,
then (b) textual page-break markers, then (c) newline runs for OCR sources,
then (d) fallback packing — and with pages whose trimmed text is *under* 10
characters dropped.  Written from the claim's words, for comparison with the
source's `splitIntoPages`. -/
def splitIntoPagesClaimed (src : Src) (text : List Char) : List PageText :=
  if text.contains '\x0c' then
    dropUnder10 (numberPages src (text.splitOn '\x0c'))
  else if hasPageBreak text then
    dropUnder10 (numberPages src (splitPageBreak text))
  else if src = Src.ocr ∧ (splitNN3 text).length > 1 then
    dropUnder10 (numberPages src (splitNN3 text))
  else if text.length ≤ TARGET_PAGE_SIZE then
    dropUnder10 [⟨1, text, src⟩]
  else
    dropUnder10 (packLoop src 1 [] (splitNN2 text))

/-! ## PDF pipeline (src/unnamed/part_005)

`pdf2json` is an external library: the decoded page structure the parser
delivers to the `pdfParser_dataReady` callback is a parameter of the model.
A page is its list of text runs; a run is `some s` when `t.R?.[0]?.T` is
present and truthy and `decodeURIComponent` succeeds (`s` the decoded text),
`none` when the run is skipped (missing or empty `T`, or a decode error).
Wall-clock fields (`processingTimeMs`) and console logging are omitted. -/

/-- A decoded pdf2json page. -/
structure PDFPage where
  texts : List (Option (List Char))
  deriving DecidableEq, Repr

/-- `PDFClassification`. -/
inductive PDFClassification
  | TEXT_BASED
  | SCANNED
  | MIXED
  | ENCRYPTED
  | CORRUPTED
  deriving DecidableEq, Repr

/-- The runtime failure-reason strings of both pipelines
(`ExtractedDocument['failureReason']` plus the OCR-side reasons that are cast
into it at src/unnamed/part_005 line 634). -/
inductive FailureReason
  | SCANNED
  | ENCRYPTED
  | CORRUPTED
  | TIMEOUT
  | TOO_LARGE
  | EMPTY
  | TOO_MANY_PAGES
  | RENDER_FAILED
  | OCR_FAILED
  deriving DecidableEq, Repr

/-- `extractionStatus` values. -/
inductive ExtractionStatus
  | COMPLETE
  | PARTIAL
  | REQUIRES_OCR
  deriving DecidableEq, Repr

/-- `PipelineConfig`.  `mixedTextRatio` is a JS double; it is modelled as a
rational (all values reachable here — small-denominator ratios compared with
0.3 — compare identically under double and exact rational semantics). -/
structure PipelineConfig where
  maxSizeBytes : Nat
  timeoutMs : Nat
  batchSize : Nat
  classificationPages : Nat
  minTextThreshold : Nat
  mixedTextRatio : ℚ
  maxPagesTextBased : Nat
  maxPagesScannedSync : Nat
  maxPagesScannedAsync : Nat
  syncTimeoutMs : Nat
  ocrEnabled : Bool
  deriving DecidableEq

/-- `DEFAULT_CONFIG`. -/
def DEFAULT_CONFIG : PipelineConfig where
  maxSizeBytes := 50 * 1024 * 1024
  timeoutMs := 30000
  batchSize := 10
  classificationPages := 5
  minTextThreshold := 100
  mixedTextRatio := mkRat 3 10
  maxPagesTextBased := 200
  maxPagesScannedSync := 30
  maxPagesScannedAsync := 100
  syncTimeoutMs := 30000
  ocrEnabled := false

/-- `ocrEstimate` record. -/
structure OCREstimate where
  estimatedTimeSeconds : Nat
  pageCount : Nat
  warning : String
  canRunSync : Bool
  deriving DecidableEq, Repr

/-- `Math.ceil(x / 60)` on a non-negative integer. -/
def ceilDiv60 (x : Nat) : Nat := (x + 59) / 60

/-- `estimateOCR` (src/unnamed/part_005 lines 150-173). -/
def estimateOCR (pageCount : Nat) (config : PipelineConfig) : OCREstimate :=
  let estimatedTimeSeconds := pageCount * 10
  let canRunSync := pageCount ≤ config.maxPagesScannedSync
  let warning :=
    if pageCount > config.maxPagesScannedAsync then
      s!"This document has {pageCount} pages, exceeding the maximum of {config.maxPagesScannedAsync} pages for OCR."
    else if canRunSync then
      s!"OCR will take approximately {ceilDiv60 estimatedTimeSeconds} minute(s) for {pageCount} pages."
    else
      s!"OCR will run as a background job (~{ceilDiv60 estimatedTimeSeconds} minutes for {pageCount} pages)."
  ⟨estimatedTimeSeconds, pageCount, warning, canRunSync⟩

/-- `ClassificationResult`. -/
structure ClassificationResult where
  type : PDFClassification
  pageCount : Nat
  totalTextLength : Nat
  pagesWithText : Nat
  textDensity : ℚ
  deriving DecidableEq, Repr

/-- Total decodable text length of one page, as summed by `classifyPDF`. -/
def pageTextLength (p : PDFPage) : Nat :=
  p.texts.foldl (fun acc t => match t with | some s => acc + s.length | none => acc) 0

/-- What the classification parse delivered: the decoded pages (with the
collected non-fatal warnings), or the 10-second classification timeout. -/
inductive ClassifyParse
  | completed (pages : List PDFPage) (warnings : List String)
  | timedOut
  deriving Repr

/-- The zero-stats `CORRUPTED` result returned on timeout or zero pages. -/
def corruptedResult : ClassificationResult :=
  ⟨PDFClassification.CORRUPTED, 0, 0, 0, 0⟩

/-- The `pdfParser_dataReady` branch of `classifyPDF`
(src/unnamed/part_005 lines 282-373).  The collected `warnings` are only
logged; they do not enter the computation. -/
def classifyReady (config : PipelineConfig) (pages : List PDFPage)
    (_warnings : List String) : ClassificationResult :=
  if pages.length = 0 then corruptedResult
  else
    let samplesToCheck := min config.classificationPages pages.length
    let sampled := pages.take samplesToCheck
    let totalTextLength := (sampled.map pageTextLength).sum
    let pagesWithText := (sampled.filter (fun p => 20 < pageTextLength p)).length
    let textDensity : ℚ := if 0 < samplesToCheck then mkRat pagesWithText samplesToCheck else 0
    let type :=
      if totalTextLength = 0 then PDFClassification.SCANNED
      else if textDensity < config.mixedTextRatio then PDFClassification.MIXED
      else if totalTextLength < config.minTextThreshold then PDFClassification.SCANNED
      else PDFClassification.TEXT_BASED
    ⟨type, pages.length, totalTextLength, pagesWithText, textDensity⟩

/-- `classifyPDF` (src/unnamed/part_005 lines 247-379). -/
def classifyPDF (config : PipelineConfig) : ClassifyParse → ClassificationResult
  | .completed pages warnings => classifyReady config pages warnings
  | .timedOut => corruptedResult

/-! ### User messages and guardrails -/

/-- `USER_MESSAGES` (src/unnamed/part_005 lines 125-141), as named fields. -/
def MSG_TEXT_BASED_SUCCESS : String := "Text extracted successfully"
def MSG_SCANNED_OCR_REQUIRED : String :=
  "This PDF is scanned and requires OCR. Click \"Run OCR\" to extract text."
def MSG_MIXED_PARTIAL : String :=
  "Extracted text from text-based pages. Some scanned pages could not be processed without OCR."
def MSG_ENCRYPTED : String := "This PDF is password-protected and cannot be processed."
def MSG_CORRUPTED : String := "This file is not a valid PDF or is corrupted."
def MSG_TIMEOUT : String := "Processing timed out. The PDF may be too complex."
def MSG_TOO_LARGE : String := "File size exceeds the maximum allowed (50MB)."
def MSG_TOO_MANY_PAGES_TEXT : String :=
  "PDF has too many pages for text extraction. Maximum is 200 pages."
def MSG_TOO_MANY_PAGES_OCR_SYNC : String :=
  "PDF has too many pages for sync OCR. Maximum is 30 pages. Try async OCR."
def MSG_TOO_MANY_PAGES_OCR_ASYNC : String :=
  "PDF has too many pages for OCR. Maximum is 100 pages."
def MSG_EMPTY : String := "No text could be extracted from this PDF."
def MSG_OCR_MODULE_MISSING : String :=
  "This PDF requires OCR but the OCR module is not available. Please run: npm i after removing node_modules and package-lock.json"

/-- Result of `validatePDF`. -/
structure ValidationResult where
  valid : Bool
  failureReason : Option FailureReason := none
  userMessage : Option String := none
  deriving DecidableEq, Repr

/-- The `%PDF` magic bytes.  `buffer.slice(0, 8).toString('utf-8')` starts with
the ASCII string `%PDF` exactly when the first four bytes are `25 50 44 46`
(ASCII bytes decode one-to-one; any other leading byte sequence decodes to a
string not starting with `%PDF`). -/
def pdfMagic : List Nat := [0x25, 0x50, 0x44, 0x46]

/-- `validatePDF` (src/unnamed/part_005 lines 214-241).  The buffer is its
byte list. -/
def validatePDF (buffer : List Nat) (config : PipelineConfig) : ValidationResult :=
  if buffer.length > config.maxSizeBytes then
    ⟨false, some FailureReason.TOO_LARGE, some MSG_TOO_LARGE⟩
  else if buffer.take 4 ≠ pdfMagic then
    ⟨false, some FailureReason.CORRUPTED, some MSG_CORRUPTED⟩
  else
    ⟨true, none, none⟩

/-! ### Text extraction pipeline (Phase 3A) -/

/-- Case-sensitive literal match; returns the remainder on success. -/
def expectLit : List Char → List Char → Option (List Char)
  | [], l => some l
  | _ :: _, [] => none
  | p :: ps, c :: cs => if p = c then expectLit ps cs else none

/-- Sixteen dashes, the flank of the pdf2json page-break sentinel. -/
def dashes16 : List Char := List.replicate 16 '-'

/-- Try to match `----------------Page \(\d+\) Break----------------` at the
head of the list; returns the remainder after the match. -/
def matchSentinelAt (l : List Char) : Option (List Char) :=
  match expectLit (dashes16 ++ ('P' :: 'a' :: 'g' :: 'e' :: ' ' :: '(' :: [])) l with
  | none => none
  | some r1 =>
      if (r1.takeWhile Char.isDigit).isEmpty then none
      else
        expectLit (')' :: ' ' :: 'B' :: 'r' :: 'e' :: 'a' :: 'k' :: dashes16)
          (r1.dropWhile Char.isDigit)

theorem expectLit_length {p l r : List Char} (h : expectLit p l = some r) :
    r.length + p.length = l.length := by
  induction p generalizing l with
  | nil =>
      simp only [expectLit, Option.some.injEq] at h
      subst h; simp
  | cons a ps ih =>
      cases l with
      | nil => simp [expectLit] at h
      | cons c cs =>
          simp only [expectLit] at h
          split at h
          · have := ih h; simp only [List.length_cons]; omega
          · exact absurd h (by simp)

theorem matchSentinelAt_length {l r : List Char}
    (h : matchSentinelAt l = some r) : r.length < l.length := by
  rw [matchSentinelAt] at h
  split at h
  · exact absurd h (by simp)
  · rename_i r1 hlit
    have h1 := expectLit_length hlit
    split at h
    · exact absurd h (by simp)
    · have h2 := expectLit_length h
      have h3 : ((r1.dropWhile Char.isDigit).length) ≤ r1.length :=
        (List.dropWhile_sublist Char.isDigit).length_le
      simp only [List.length_append, List.length_cons, List.length_replicate,
        dashes16] at h1 h2
      omega

/-- Fuel-indexed scan for the sentinel-stripping replace; every step consumes
at least one character, so fuel `l.length` never runs out. -/
def removeSentinelsGo : Nat → List Char → List Char
  | 0, l => l
  | _ + 1, [] => []
  | fuel + 1, c :: rest =>
      match matchSentinelAt (c :: rest) with
      | some after => removeSentinelsGo fuel after
      | none => c :: removeSentinelsGo fuel rest

/-- `fullText.replace(/----------------Page \(\d+\) Break----------------/g, '')`. -/
def removeSentinels (l : List Char) : List Char := removeSentinelsGo l.length l

/-- Text of one page as assembled by `extractTextPipeline`: every decodable
run followed by a space, then trimmed. -/
def extractPageText (p : PDFPage) : List Char :=
  jsTrim (p.texts.foldl
    (fun acc t => match t with | some s => acc ++ s ++ [' '] | none => acc) [])

/-- `extractTextPipeline` after a successful parse
(src/unnamed/part_005 lines 412-479): page-count guard, per-page assembly,
join with newlines, trim, strip sentinels.  The batching (lines 431-468) only
drives progress logging and does not affect the produced text. -/
def extractTextPipeline (pages : List PDFPage) (config : PipelineConfig) :
    Except String (List Char) :=
  if pages.length > config.maxPagesTextBased then .error "TOO_MANY_PAGES"
  else
    .ok (removeSentinels (jsTrim (List.intercalate ['\n'] (pages.map extractPageText))))

/-- How the extraction-phase parse ended: decoded pages, the 30-second
timeout, or a `pdfParser_dataError` rejection carrying the parser message. -/
inductive ExtractParse
  | completed (pages : List PDFPage)
  | timedOut
  | dataError (msg : String)
  deriving Repr

/-! ## OCR pipeline (src/lib/ocr-pipeline.ts)

Rendering (`pdfToPng`) and recognition (`tesseract.js`) are external; the
model takes their outcomes as parameters.  Each page either has no rendered
content (`!page.content`), fails (`ocrPage` resolved `{text:'', success:false}`
— a per-page timeout or a thrown recognition error), or is recognized with
some text.  The total-timeout check `Date.now() - startTime >
config.totalTimeoutMs` at the top of each iteration is the oracle
`timeoutBefore i`. -/

/-- `OCRConfig`.  `scale` only parametrizes the external renderer. -/
structure OCRConfig where
  pageTimeoutMs : Nat
  totalTimeoutMs : Nat
  batchSize : Nat
  scale : ℚ
  language : String
  maxPages : Nat
  deriving DecidableEq

/-- `DEFAULT_OCR_CONFIG`. -/
def DEFAULT_OCR_CONFIG : OCRConfig where
  pageTimeoutMs := 30000
  totalTimeoutMs := 300000
  batchSize := 3
  scale := mkRat 2 1
  language := "eng"
  maxPages := 100

/-- `OCRResult` (wall-clock field omitted). -/
structure OCRResult where
  success : Bool
  text : List Char
  pageCount : Nat
  pagesProcessed : Nat
  userMessage : String
  failureReason : Option FailureReason := none
  deriving DecidableEq, Repr

def OCR_MSG_SUCCESS : String := "OCR completed successfully"
def OCR_MSG_TOO_MANY_PAGES : String := "PDF has too many pages for OCR. Maximum is 100 pages."
def OCR_MSG_RENDER_FAILED : String := "Failed to render PDF pages for OCR."
def OCR_MSG_OCR_FAILED : String := "Text recognition failed."

/-- Outcome of one rendered page inside the OCR loop. -/
inductive PageOCROutcome
  | noContent
  | failed
  | recognized (text : List Char)
  deriving DecidableEq, Repr

/-- The page loop of `performOCR` (src/lib/ocr-pipeline.ts lines 233-274):
returns the accumulated `textParts` and `pagesProcessed`.  `i` is the index of
the next page; `timeoutBefore i` says whether the total timeout had expired
when page `i` came up (in which case the loop breaks). -/
def ocrLoop (timeoutBefore : Nat → Bool) : Nat → List PageOCROutcome →
    List (List Char) × Nat
  | _, [] => ([], 0)
  | i, p :: rest =>
      if timeoutBefore i then ([], 0)
      else
        let (parts, n) := ocrLoop timeoutBefore (i + 1) rest
        match p with
        | .noContent => ([] :: parts, n)
        | .failed => ([] :: parts, n)
        | .recognized t => (t :: parts, n + 1)

/-- `performOCR` (src/lib/ocr-pipeline.ts lines 160-321).  `render` is `none`
when `pdfToPng` threw; `workerOk` is false when `initWorker` threw (the outer
catch then reports `OCR_FAILED`). -/
def performOCR (render : Option (List PageOCROutcome)) (workerOk : Bool)
    (timeoutBefore : Nat → Bool) (config : OCRConfig) : OCRResult :=
  match render with
  | none =>
      { success := false, text := [], pageCount := 0, pagesProcessed := 0,
        userMessage := OCR_MSG_RENDER_FAILED,
        failureReason := some FailureReason.RENDER_FAILED }
  | some pages =>
      if pages.length > config.maxPages then
        { success := false, text := [], pageCount := pages.length,
          pagesProcessed := 0, userMessage := OCR_MSG_TOO_MANY_PAGES,
          failureReason := some FailureReason.TOO_MANY_PAGES }
      else if ¬ workerOk then
        { success := false, text := [], pageCount := 0, pagesProcessed := 0,
          userMessage := OCR_MSG_OCR_FAILED,
          failureReason := some FailureReason.OCR_FAILED }
      else
        let (parts, n) := ocrLoop timeoutBefore 0 pages
        { success := true,
          text := jsTrim (List.intercalate ['\n', '\n'] parts),
          pageCount := pages.length, pagesProcessed := n,
          userMessage := OCR_MSG_SUCCESS }

/-! ## `extractPDFText` (src/unnamed/part_005 lines 489-736) -/

/-- `ExtractedDocument` (wall-clock field omitted; `warnings` is declared in
the interface but never set by `extractPDFText`). -/
structure ExtractedDocument where
  success : Bool
  text : List Char
  pageCount : Nat
  source : Src
  classification : PDFClassification
  userMessage : String
  failureReason : Option FailureReason := none
  requiresOCR : Option Bool := none
  ocrEstimate : Option OCREstimate := none
  extractionStatus : Option ExtractionStatus := none
  deriving DecidableEq, Repr

/-- The catch-all error mapping of `extractPDFText`
(src/unnamed/part_005 lines 706-732). -/
def catchDoc (msg : String) : ExtractedDocument :=
  if msg = "TIMEOUT" then
    { success := false, text := [], pageCount := 0, source := Src.pdf2json,
      classification := PDFClassification.CORRUPTED, userMessage := MSG_TIMEOUT,
      failureReason := some FailureReason.TIMEOUT }
  else if msg = "TOO_MANY_PAGES" then
    { success := false, text := [], pageCount := 0, source := Src.pdf2json,
      classification := PDFClassification.CORRUPTED,
      userMessage := MSG_TOO_MANY_PAGES_TEXT,
      failureReason := some FailureReason.TOO_MANY_PAGES }
  else
    { success := false, text := [], pageCount := 0, source := Src.pdf2json,
      classification := PDFClassification.CORRUPTED, userMessage := MSG_CORRUPTED,
      failureReason := some FailureReason.CORRUPTED }

/-- Phase 3 of `extractPDFText` for `TEXT_BASED` / `MIXED`
(src/unnamed/part_005 lines 665-704, failures routed through the catch
block). -/
def extractPhase3 (classification : ClassificationResult)
    (extParse : ExtractParse) (config : PipelineConfig) : ExtractedDocument :=
  match extParse with
  | .timedOut => catchDoc "TIMEOUT"
  | .dataError msg => catchDoc msg
  | .completed pages =>
      match extractTextPipeline pages config with
      | .error e => catchDoc e
      | .ok text =>
          if text = [] ∨ trimLen text < 10 then
            { success := false, text := [], pageCount := classification.pageCount,
              source := Src.pdf2json, classification := classification.type,
              userMessage := MSG_EMPTY, failureReason := some FailureReason.EMPTY }
          else
            { success := true, text := text, pageCount := classification.pageCount,
              source := Src.pdf2json, classification := classification.type,
              userMessage :=
                if classification.type = PDFClassification.MIXED then MSG_MIXED_PARTIAL
                else MSG_TEXT_BASED_SUCCESS,
              extractionStatus :=
                some (if classification.type = PDFClassification.MIXED then
                  ExtractionStatus.PARTIAL else ExtractionStatus.COMPLETE) }

/-- `extractPDFText`.  External outcomes are parameters: `clsParse` is what the
classification parse delivered, `extParse` what the extraction-phase parse
delivered, `ocrModuleOk` whether the dynamic `import('./ocr-pipeline')`
succeeded, and `ocrRun` the `performOCR` result when that path runs. -/
def extractPDFText (buffer : List Nat) (config : PipelineConfig)
    (clsParse : ClassifyParse) (extParse : ExtractParse)
    (ocrModuleOk : Bool) (ocrRun : OCRResult) : ExtractedDocument :=
  -- Phase 0: guardrails
  let validation := validatePDF buffer config
  if ¬ validation.valid then
    { success := false, text := [], pageCount := 0, source := Src.pdf2json,
      classification := PDFClassification.CORRUPTED,
      userMessage := validation.userMessage.getD MSG_CORRUPTED,
      failureReason := validation.failureReason }
  else
    -- Phase 1: classification
    let classification := classifyPDF config clsParse
    -- Phase 2: pipeline selection
    match classification.type with
    | PDFClassification.ENCRYPTED =>
        { success := false, text := [], pageCount := classification.pageCount,
          source := Src.pdf2json, classification := PDFClassification.ENCRYPTED,
          userMessage := MSG_ENCRYPTED,
          failureReason := some FailureReason.ENCRYPTED }
    | PDFClassification.CORRUPTED =>
        { success := false, text := [], pageCount := 0, source := Src.pdf2json,
          classification := PDFClassification.CORRUPTED,
          userMessage := MSG_CORRUPTED,
          failureReason := some FailureReason.CORRUPTED }
    | PDFClassification.SCANNED =>
        if classification.pageCount > config.maxPagesScannedAsync then
          { success := false, text := [], pageCount := classification.pageCount,
            source := Src.pdf2json, classification := PDFClassification.SCANNED,
            userMessage := MSG_TOO_MANY_PAGES_OCR_ASYNC,
            failureReason := some FailureReason.TOO_MANY_PAGES,
            requiresOCR := some true,
            extractionStatus := some ExtractionStatus.REQUIRES_OCR }
        else if ¬ config.ocrEnabled then
          { success := false, text := [], pageCount := classification.pageCount,
            source := Src.pdf2json, classification := PDFClassification.SCANNED,
            userMessage := MSG_SCANNED_OCR_REQUIRED,
            requiresOCR := some true,
            ocrEstimate := some (estimateOCR classification.pageCount config),
            extractionStatus := some ExtractionStatus.REQUIRES_OCR }
        else if classification.pageCount > config.maxPagesScannedSync then
          { success := false, text := [], pageCount := classification.pageCount,
            source := Src.pdf2json, classification := PDFClassification.SCANNED,
            userMessage := MSG_TOO_MANY_PAGES_OCR_SYNC,
            requiresOCR := some true,
            ocrEstimate := some (estimateOCR classification.pageCount config),
            extractionStatus := some ExtractionStatus.REQUIRES_OCR }
        else if ocrModuleOk then
          { success := ocrRun.success, text := ocrRun.text,
            pageCount := ocrRun.pageCount, source := Src.ocr,
            classification := PDFClassification.SCANNED,
            userMessage := ocrRun.userMessage,
            failureReason := if ocrRun.success then none else ocrRun.failureReason,
            extractionStatus := some (if ocrRun.success then
              ExtractionStatus.COMPLETE else ExtractionStatus.REQUIRES_OCR) }
        else
          { success := false, text := [], pageCount := classification.pageCount,
            source := Src.pdf2json, classification := PDFClassification.SCANNED,
            userMessage := MSG_OCR_MODULE_MISSING,
            failureReason := some FailureReason.SCANNED,
            requiresOCR := some true,
            extractionStatus := some ExtractionStatus.REQUIRES_OCR }
    | PDFClassification.MIXED => extractPhase3 classification extParse config
    | PDFClassification.TEXT_BASED => extractPhase3 classification extParse config

/-! ## Incremental vectorization (src/lib/vectorize-pipeline.ts)

The text splitter (`RecursiveCharacterTextSplitter.createDocuments`, an
external langchain class configured with `chunkSize`/`chunkOverlap`) and the
injected `embedFn`/`storeFn` capabilities are parameters.  The model threads
an explicit event trace recording, in execution order, which page is entered,
which chunk contents are passed to the embed callback, and which chunk
records are passed to the store callback. -/

/-- `VectorizationConfig`. -/
structure VectorizationConfig where
  chunkSize : Nat
  chunkOverlap : Nat
  batchSize : Nat
  maxChunksPerDocument : Nat
  embeddingBatchSize : Nat
  embeddingRateLimitMs : Nat
  deriving DecidableEq, Repr

/-- `DEFAULT_VECTORIZATION_CONFIG`. -/
def DEFAULT_VECTORIZATION_CONFIG : VectorizationConfig where
  chunkSize := 500
  chunkOverlap := 50
  batchSize := 10
  maxChunksPerDocument := 500
  embeddingBatchSize := 20
  embeddingRateLimitMs := 100

/-- `ChunkRecord`.  The embedding vector (`number[]`) is modelled as
`List Int`; no claim computes with its entries. -/
structure ChunkRecord where
  documentId : String
  documentName : Option String := none
  page : Nat
  chunkIndex : Nat
  content : List Char
  source : Src
  embedding : Option (List Int) := none
  deriving DecidableEq, Repr

/-- `VectorizationResult` (wall-clock field omitted). -/
structure VectorizationResult where
  success : Bool
  documentId : String
  totalPages : Nat
  totalChunks : Nat
  userMessage : String
  failureReason : Option String := none
  deriving DecidableEq, Repr

/-- The configured external splitter: `createDocuments([normalized])`. -/
abbrev Splitter := List Char → List (List Char)

/-- `EmbedFunction`: `(text) => vector | null`. -/
abbrev EmbedFn := List Char → Option (List Int)

/-- Store capability: `store(chunk) -> bool`. -/
abbrev StoreFn := ChunkRecord → Bool

/-- `chunkPage` (src/lib/vectorize-pipeline.ts lines 107-132). -/
def chunkPage (splitter : Splitter) (pageText : PageText) : List ChunkRecord :=
  let normalized := normalizeText pageText.text
  if normalized = [] ∨ normalized.length < 10 then []
  else
    (splitter normalized).enum.map fun p =>
      { documentId := "", page := pageText.pageNumber, chunkIndex := p.1,
        content := p.2, source := pageText.source }

/-- JS truthiness of the optional document name (`undefined` and `''` are
falsy). -/
def nameTruthy : Option String → Bool
  | some s => s ≠ ""
  | none => false

/-- The `chunks.forEach` of `vectorizeIncrementally` (lines 202-210): set
`documentId`/`documentName` on every chunk and, on the first chunk of the
first page, prepend `` `Document: ${documentName}\\n\\n` `` — in the source
this is a template literal containing escaped backslashes, so the prefix ends
in the four literal characters backslash, `n`, backslash, `n`. -/
def setMeta (documentId : String) (documentName : Option String)
    (pagesProcessed : Nat) (chunks : List ChunkRecord) : List ChunkRecord :=
  chunks.enum.map fun p =>
    { p.2 with
      documentId := documentId
      documentName := documentName
      content :=
        if pagesProcessed = 0 ∧ p.1 = 0 ∧ nameTruthy documentName then
          "Document: ".data ++ (documentName.getD "").data
            ++ ['\\', 'n', '\\', 'n'] ++ p.2.content
        else p.2.content }

/-- One event of the vectorization run. -/
inductive VecEvent
  | pageEv (p : PageText)
  | embedEv (content : List Char)
  | storeEv (chunk : ChunkRecord)
  deriving DecidableEq, Repr

/-- Fuel-indexed batch grouping; every batch consumes at least one element,
so fuel `l.length` never runs out. -/
def toBatchesGo (n : Nat) : Nat → List α → List (List α)
  | 0, _ => []
  | _ + 1, [] => []
  | fuel + 1, c :: rest =>
      (c :: rest).take (max n 1) :: toBatchesGo n fuel ((c :: rest).drop (max n 1))

/-- Split a list into consecutive batches of size `n` (the
`for (let i = 0; i < chunks.length; i += EMBED_BATCH_SIZE)` grouping).  For
`n = 0` the JS loop would not terminate; the model uses batch size
`max n 1` — all claims involve positive batch sizes. -/
def toBatches (n : Nat) (l : List α) : List (List α) := toBatchesGo n l.length l

/-- The chunks of a list that embed successfully, with their embedding
attached (the non-null results of the batch's `embedPromises`,
lines 244-253). -/
def embeddedOf (embedFn : EmbedFn) (chunks : List ChunkRecord) : List ChunkRecord :=
  chunks.filterMap fun c =>
    match embedFn c.content with
    | some e => some { c with embedding := some e }
    | none => none

/-- Process one embedding batch (lines 243-276): one embed call per chunk (in
order), attach the embedding where the call returned a vector, then one store
call per successfully embedded chunk; returns the events and the number of
stores that returned `true`. -/
def processBatch (embedFn : EmbedFn) (storeFn : StoreFn)
    (batch : List ChunkRecord) : List VecEvent × Nat :=
  ((batch.map fun c => VecEvent.embedEv c.content)
    ++ (embeddedOf embedFn batch).map VecEvent.storeEv,
   ((embeddedOf embedFn batch).filter fun c => storeFn c).length)

/-- All embedding batches of one page's chunk list. -/
def processChunks (embedFn : EmbedFn) (storeFn : StoreFn)
    (embeddingBatchSize : Nat) (chunks : List ChunkRecord) :
    List VecEvent × Nat :=
  let rs := (toBatches embeddingBatchSize chunks).map (processBatch embedFn storeFn)
  ((rs.map Prod.fst).flatten, (rs.map Prod.snd).sum)

/-- Final loop state of `vectorizeIncrementally`. -/
structure VecLoopOut where
  events : List VecEvent
  chunksCreated : Nat
  chunksEmbedded : Nat
  pagesProcessed : Nat
  deriving Repr

/-- The `for (const pageText of pages)` loop of `vectorizeIncrementally`
(lines 187-286): chunk the page, set metadata, enforce the chunk budget by
discarding the chunks beyond the cap (the `splice`) before any embedding,
embed/store in batches, and break once the budget is reached. -/
def vecLoop (splitter : Splitter) (embedFn : EmbedFn) (storeFn : StoreFn)
    (config : VectorizationConfig) (documentId : String)
    (documentName : Option String) :
    List PageText → Nat → Nat → Nat → VecLoopOut
  | [], created, embedded, pagesProcessed => ⟨[], created, embedded, pagesProcessed⟩
  | page :: rest, created, embedded, pagesProcessed =>
      let chunks0 := setMeta documentId documentName pagesProcessed
        (chunkPage splitter page)
      let created1 := created + chunks0.length
      let chunks1 :=
        if created1 > config.maxChunksPerDocument then
          chunks0.take (chunks0.length - (created1 - config.maxChunksPerDocument))
        else chunks0
      let created2 :=
        if created1 > config.maxChunksPerDocument then config.maxChunksPerDocument
        else created1
      let pr := processChunks embedFn storeFn config.embeddingBatchSize chunks1
      if created2 ≥ config.maxChunksPerDocument then
        ⟨VecEvent.pageEv page :: pr.1, created2, embedded + pr.2, pagesProcessed + 1⟩
      else
        let out := vecLoop splitter embedFn storeFn config documentId documentName
          rest created2 (embedded + pr.2) (pagesProcessed + 1)
        ⟨VecEvent.pageEv page :: pr.1 ++ out.events, out.chunksCreated,
         out.chunksEmbedded, out.pagesProcessed⟩

/-- `vectorizeIncrementally` (lines 161-327) together with its event trace and
final loop state.  The model is total: callback exceptions (the outer
`try/catch`) are outside it. -/
def vectorizeRun (text : List Char) (documentId : String) (source : Src)
    (splitter : Splitter) (embedFn : EmbedFn) (storeFn : StoreFn)
    (config : VectorizationConfig) (documentName : Option String) :
    VectorizationResult × VecLoopOut :=
  let pages := splitIntoPages source text
  let out := vecLoop splitter embedFn storeFn config documentId documentName
    pages 0 0 0
  ({ success := out.chunksEmbedded > 0,
     documentId := documentId,
     totalPages := pages.length,
     totalChunks := out.chunksEmbedded,
     userMessage :=
       if out.chunksEmbedded > 0 then
         s!"Successfully indexed {out.chunksEmbedded} text chunks from {pages.length} pages"
       else "No chunks could be embedded" }, out)

/-- The `VectorizationResult` a caller sees. -/
def vectorizeIncrementally (text : List Char) (documentId : String) (source : Src)
    (splitter : Splitter) (embedFn : EmbedFn) (storeFn : StoreFn)
    (config : VectorizationConfig) (documentName : Option String) :
    VectorizationResult :=
  (vectorizeRun text documentId source splitter embedFn storeFn config
    documentName).1

/-! ## Derived observations used by the claims -/

/-- The classification rule in the order the spec states it (§4.2), as a
function of the sampled statistics alone. -/
def classificationRule (config : PipelineConfig) (pageCount totalTextLength : Nat)
    (textDensity : ℚ) : PDFClassification :=
  if pageCount = 0 then PDFClassification.CORRUPTED
  else if totalTextLength = 0 then PDFClassification.SCANNED
  else if textDensity < config.mixedTextRatio then PDFClassification.MIXED
  else if totalTextLength < config.minTextThreshold then PDFClassification.SCANNED
  else PDFClassification.TEXT_BASED

/-- The page numbers of a page sequence, in order. -/
def pageNumbers (ps : List PageText) : List Nat := ps.map PageText.pageNumber

/-- The contents passed to the embed callback, in call order. -/
def embedCallsOf (evs : List VecEvent) : List (List Char) :=
  evs.filterMap fun e => match e with | VecEvent.embedEv c => some c | _ => none

/-- The chunk records passed to the store callback, in call order. -/
def storeCallsOf (evs : List VecEvent) : List ChunkRecord :=
  evs.filterMap fun e => match e with | VecEvent.storeEv c => some c | _ => none

/-- The pages entered by the vectorization loop, in order. -/
def pageEvsOf (evs : List VecEvent) : List PageText :=
  evs.filterMap fun e => match e with | VecEvent.pageEv p => some p | _ => none

/-- The page outcomes the OCR loop actually attempts: the prefix before the
first iteration at which the total timeout had expired. -/
def attemptedPages (timeoutBefore : Nat → Bool) :
    Nat → List PageOCROutcome → List PageOCROutcome
  | _, [] => []
  | i, p :: rest =>
      if timeoutBefore i then []
      else p :: attemptedPages timeoutBefore (i + 1) rest

/-- The entry a page contributes to `textParts`: its recognized text, or the
empty-string placeholder. -/
def pagePlaceholder : PageOCROutcome → List Char
  | .recognized t => t
  | _ => []

/-- Whether a page was successfully recognized (counted by `pagesProcessed`). -/
def isRecognized : PageOCROutcome → Bool
  | .recognized _ => true
  | _ => false

/-- Invariant package of the vectorization loop, relating the final state
`out` reached from the initial accumulators to the event trace: embed calls
account exactly for the chunks kept under the budget; the budget is never
exceeded; stores only follow successful embeds; `chunksEmbedded` counts the
`true` stores; the entered pages are a prefix of the page list, cut short
only when the budget is reached. -/
def VecLoopClaims (embedFn : EmbedFn) (storeFn : StoreFn)
    (config : VectorizationConfig) (pages : List PageText)
    (created embedded pp : Nat) (out : VecLoopOut) : Prop :=
  (embedCallsOf out.events).length = out.chunksCreated - created
  ∧ created ≤ out.chunksCreated
  ∧ out.chunksCreated ≤ config.maxChunksPerDocument
  ∧ (storeCallsOf out.events).length ≤ (embedCallsOf out.events).length
  ∧ out.chunksEmbedded =
      embedded + ((storeCallsOf out.events).filter fun c => storeFn c).length
  ∧ (∀ c ∈ storeCallsOf out.events,
      ∃ e, embedFn c.content = some e ∧ c.embedding = some e)
  ∧ ∃ k, k ≤ pages.length ∧ out.pagesProcessed = pp + k
      ∧ pageEvsOf out.events = pages.take k
      ∧ (k = pages.length ∨ out.chunksCreated = config.maxChunksPerDocument)

/-- Concrete splitter input: an OCR text containing both a triple-newline run
and a form feed, on which the two strategy orders disagree. -/
def demoSplitText : List Char :=
  List.replicate 16 'A' ++ "\n\n\n".data ++ List.replicate 16 'B'
    ++ ['\x0c'] ++ List.replicate 16 'C'

/-- Gap-freedom of a number sequence: every two consecutive entries differ by
exactly one. -/
def consecNums : List Nat → Bool
  | a :: b :: rest => (b = a + 1) && consecNums (b :: rest)
  | _ => true

/-- Concrete vectorization input for witnesses: 24 characters, already in
normal form. -/
def demoVecText : List Char := "axbbccddaxbbccddaxbbccdd".data

/-- Concrete splitter producing twelve 2-character chunks from the page. -/
def demoSplitter12 : Splitter := fun l =>
  (List.range 12).map fun i => (l.drop (2 * i)).take 2

/-- Concrete embed callback returning `null` exactly on chunks starting with
`'a'` (three of the twelve demo chunks). -/
def demoEmbedNullOnA : EmbedFn := fun c =>
  if c.headI = 'a' then none else some [1]

/-- Concrete store callback that always succeeds. -/
def demoStoreTrue : StoreFn := fun _ => true

/-! # Theorems -/

theorem classifyReady_type_eq_rule (config : PipelineConfig)
    (pages : List PDFPage) (w : List String) :
    (classifyReady config pages w).type =
      classificationRule config (classifyReady config pages w).pageCount
        (classifyReady config pages w).totalTextLength
        (classifyReady config pages w).textDensity := by
  by_cases hp : pages.length = 0
  · simp [classifyReady, hp, corruptedResult, classificationRule]
  · rw [classifyReady]
    simp only [if_neg hp, classificationRule]

/-- C1.  On every completed classification parse, the label equals the
spec's five-step rule applied to the sampled statistics; the collected
non-fatal warnings never change the result; and identical sampled statistics
always yield the identical label. -/
theorem C1_classification_rule_pure (config : PipelineConfig)
    (pages : List PDFPage) (w w' : List String) :
    ((classifyPDF config (ClassifyParse.completed pages w)).type =
      classificationRule config
        (classifyPDF config (ClassifyParse.completed pages w)).pageCount
        (classifyPDF config (ClassifyParse.completed pages w)).totalTextLength
        (classifyPDF config (ClassifyParse.completed pages w)).textDensity)
    ∧ (classifyPDF config (ClassifyParse.completed pages w) =
        classifyPDF config (ClassifyParse.completed pages w'))
    ∧ (∀ (pages₂ : List PDFPage) (w₂ : List String),
        (classifyPDF config (ClassifyParse.completed pages w)).pageCount =
          (classifyPDF config (ClassifyParse.completed pages₂ w₂)).pageCount →
        (classifyPDF config (ClassifyParse.completed pages w)).totalTextLength =
          (classifyPDF config (ClassifyParse.completed pages₂ w₂)).totalTextLength →
        (classifyPDF config (ClassifyParse.completed pages w)).textDensity =
          (classifyPDF config (ClassifyParse.completed pages₂ w₂)).textDensity →
        (classifyPDF config (ClassifyParse.completed pages w)).type =
          (classifyPDF config (ClassifyParse.completed pages₂ w₂)).type) := by
  refine ⟨classifyReady_type_eq_rule config pages w, rfl, ?_⟩
  intro pages₂ w₂ h1 h2 h3
  have e1 := classifyReady_type_eq_rule config pages w
  have e2 := classifyReady_type_eq_rule config pages₂ w₂
  show (classifyReady config pages w).type = (classifyReady config pages₂ w₂).type
  rw [e1, e2]
  exact congr (congrArg₂ _ h1 h2) h3

set_option maxRecDepth 4000 in
/-- Witness for C1 at concrete inputs: two different parses with identical
sampled statistics (one page, 150 characters of text, density 1) and
different warning lists classify identically, as `TEXT_BASED`. -/
theorem C1_witness :
    ((classifyPDF DEFAULT_CONFIG (ClassifyParse.completed
        [⟨[some (List.replicate 150 'x')]⟩] [])).pageCount =
      (classifyPDF DEFAULT_CONFIG (ClassifyParse.completed
        [⟨[some (List.replicate 70 'y'), some (List.replicate 80 'z')]⟩]
        ["warning"])).pageCount)
    ∧ ((classifyPDF DEFAULT_CONFIG (ClassifyParse.completed
        [⟨[some (List.replicate 150 'x')]⟩] [])).type =
      (classifyPDF DEFAULT_CONFIG (ClassifyParse.completed
        [⟨[some (List.replicate 70 'y'), some (List.replicate 80 'z')]⟩]
        ["warning"])).type)
    ∧ (classifyPDF DEFAULT_CONFIG (ClassifyParse.completed
        [⟨[some (List.replicate 150 'x')]⟩] [])).type =
        PDFClassification.TEXT_BASED :=
  ⟨by decide,
   (C1_classification_rule_pure DEFAULT_CONFIG
      [⟨[some (List.replicate 150 'x')]⟩] [] []).2.2
      [⟨[some (List.replicate 70 'y'), some (List.replicate 80 'z')]⟩]
      ["warning"] (by decide) (by decide) (by decide),
   by decide⟩

theorem classifyPDF_ocrEnabled_irrelevant (config : PipelineConfig)
    (p : ClassifyParse) (b : Bool) :
    classifyPDF { config with ocrEnabled := b } p = classifyPDF config p := by
  cases p <;> rfl

/-- C2.  A `SCANNED` classification whose page count exceeds
`maxPagesScannedAsync` is rejected with `TOO_MANY_PAGES` and
`requiresOCR = true` for either value of the `ocrEnabled` flag (the right-hand
side does not mention the flag), and independently of the extraction parse,
the OCR module and any OCR run (which are never consulted). -/
theorem C2_scanned_async_cap_rejected (buffer : List Nat)
    (config : PipelineConfig) (clsParse : ClassifyParse)
    (extParse : ExtractParse) (mOk : Bool) (ocrRun : OCRResult) (b : Bool)
    (hvalid : (validatePDF buffer config).valid = true)
    (htype : (classifyPDF config clsParse).type = PDFClassification.SCANNED)
    (hcap : (classifyPDF config clsParse).pageCount > config.maxPagesScannedAsync) :
    extractPDFText buffer { config with ocrEnabled := b } clsParse extParse
        mOk ocrRun =
      { success := false, text := [],
        pageCount := (classifyPDF config clsParse).pageCount,
        source := Src.pdf2json, classification := PDFClassification.SCANNED,
        userMessage := MSG_TOO_MANY_PAGES_OCR_ASYNC,
        failureReason := some FailureReason.TOO_MANY_PAGES,
        requiresOCR := some true,
        extractionStatus := some ExtractionStatus.REQUIRES_OCR } := by
  have hv : validatePDF buffer { config with ocrEnabled := b }
      = validatePDF buffer config := rfl
  have hc := classifyPDF_ocrEnabled_irrelevant config clsParse b
  simp only [extractPDFText, hv, hc, hvalid, not_true_eq_false, if_false,
    Bool.false_eq_true]
  split
  · rename_i heq; rw [heq] at htype; exact absurd htype (by simp)
  · rename_i heq; rw [heq] at htype; exact absurd htype (by simp)
  · rw [if_pos hcap]
  · rename_i heq; rw [heq] at htype; exact absurd htype (by simp)
  · rename_i heq; rw [heq] at htype; exact absurd htype (by simp)

set_option maxRecDepth 10000 in
/-- Witness for C2: a 150-page all-image document (150 > 100) is rejected the
same way with OCR explicitly enabled. -/
theorem C2_witness :
    ((validatePDF pdfMagic DEFAULT_CONFIG).valid = true)
    ∧ ((classifyPDF DEFAULT_CONFIG
        (ClassifyParse.completed (List.replicate 150 ⟨[]⟩) [])).type =
        PDFClassification.SCANNED)
    ∧ ((classifyPDF DEFAULT_CONFIG
        (ClassifyParse.completed (List.replicate 150 ⟨[]⟩) [])).pageCount >
        DEFAULT_CONFIG.maxPagesScannedAsync)
    ∧ (extractPDFText pdfMagic { DEFAULT_CONFIG with ocrEnabled := true }
        (ClassifyParse.completed (List.replicate 150 ⟨[]⟩) [])
        ExtractParse.timedOut true ⟨false, [], 0, 0, "", none⟩ =
      { success := false, text := [], pageCount := 150,
        source := Src.pdf2json, classification := PDFClassification.SCANNED,
        userMessage := MSG_TOO_MANY_PAGES_OCR_ASYNC,
        failureReason := some FailureReason.TOO_MANY_PAGES,
        requiresOCR := some true,
        extractionStatus := some ExtractionStatus.REQUIRES_OCR }) :=
  ⟨by decide, by decide, by decide, by
    have := C2_scanned_async_cap_rejected pdfMagic DEFAULT_CONFIG
      (ClassifyParse.completed (List.replicate 150 ⟨[]⟩) [])
      ExtractParse.timedOut true ⟨false, [], 0, 0, "", none⟩ true
      (by decide) (by decide) (by decide)
    rw [this]
    have hpc : (classifyPDF DEFAULT_CONFIG
        (ClassifyParse.completed (List.replicate 150 ⟨[]⟩) [])).pageCount = 150 := by
      decide
    rw [hpc]⟩

/-- C4.  An over-sized buffer fails `TOO_LARGE` with every downstream
parameter irrelevant (the classifier is never invoked), and a within-size
buffer without the `%PDF` magic fails `CORRUPTED`; the size check runs first. -/
theorem C4_guardrails_order (buffer : List Nat) (config : PipelineConfig)
    (p p' : ClassifyParse) (e e' : ExtractParse) (m m' : Bool)
    (o o' : OCRResult) :
    (buffer.length > config.maxSizeBytes →
      extractPDFText buffer config p e m o =
        { success := false, text := [], pageCount := 0, source := Src.pdf2json,
          classification := PDFClassification.CORRUPTED,
          userMessage := MSG_TOO_LARGE,
          failureReason := some FailureReason.TOO_LARGE }
      ∧ extractPDFText buffer config p e m o =
          extractPDFText buffer config p' e' m' o')
    ∧ (buffer.length ≤ config.maxSizeBytes → buffer.take 4 ≠ pdfMagic →
      extractPDFText buffer config p e m o =
        { success := false, text := [], pageCount := 0, source := Src.pdf2json,
          classification := PDFClassification.CORRUPTED,
          userMessage := MSG_CORRUPTED,
          failureReason := some FailureReason.CORRUPTED }) := by
  constructor
  · intro hlen
    have hval : validatePDF buffer config =
        ⟨false, some FailureReason.TOO_LARGE, some MSG_TOO_LARGE⟩ := by
      rw [validatePDF, if_pos hlen]
    constructor
    · rw [extractPDFText, hval]; rfl
    · rw [extractPDFText, hval, extractPDFText, hval]; rfl
  · intro hlen hmagic
    have hval : validatePDF buffer config =
        ⟨false, some FailureReason.CORRUPTED, some MSG_CORRUPTED⟩ := by
      rw [validatePDF, if_neg (by omega), if_pos hmagic]
    rw [extractPDFText, hval]; rfl

/-- Witness for C4: a 9-byte buffer against a limit of 8 fails `TOO_LARGE`
even though its magic is also wrong, with two different classifier parses
giving the same result; and the same buffer within a large limit fails
`CORRUPTED`. -/
theorem C4_witness :
    ((9 : Nat) > ({ DEFAULT_CONFIG with maxSizeBytes := 8 }).maxSizeBytes
      ∧ extractPDFText (List.replicate 9 0) { DEFAULT_CONFIG with maxSizeBytes := 8 }
          (ClassifyParse.completed [⟨[]⟩] []) ExtractParse.timedOut true
          ⟨false, [], 0, 0, "", none⟩ =
        { success := false, text := [], pageCount := 0, source := Src.pdf2json,
          classification := PDFClassification.CORRUPTED,
          userMessage := MSG_TOO_LARGE,
          failureReason := some FailureReason.TOO_LARGE }
      ∧ extractPDFText (List.replicate 9 0) { DEFAULT_CONFIG with maxSizeBytes := 8 }
          (ClassifyParse.completed [⟨[]⟩] []) ExtractParse.timedOut true
          ⟨false, [], 0, 0, "", none⟩ =
        extractPDFText (List.replicate 9 0) { DEFAULT_CONFIG with maxSizeBytes := 8 }
          ClassifyParse.timedOut (ExtractParse.dataError "x") false
          ⟨true, ['a'], 1, 1, "", none⟩)
    ∧ extractPDFText (List.replicate 9 0) DEFAULT_CONFIG
          (ClassifyParse.completed [⟨[]⟩] []) ExtractParse.timedOut true
          ⟨false, [], 0, 0, "", none⟩ =
        { success := false, text := [], pageCount := 0, source := Src.pdf2json,
          classification := PDFClassification.CORRUPTED,
          userMessage := MSG_CORRUPTED,
          failureReason := some FailureReason.CORRUPTED } :=
  ⟨⟨by decide,
    (C4_guardrails_order (List.replicate 9 0) { DEFAULT_CONFIG with maxSizeBytes := 8 }
      (ClassifyParse.completed [⟨[]⟩] []) ClassifyParse.timedOut
      ExtractParse.timedOut (ExtractParse.dataError "x") true false
      ⟨false, [], 0, 0, "", none⟩ ⟨true, ['a'], 1, 1, "", none⟩).1
      (by decide)⟩,
   (C4_guardrails_order (List.replicate 9 0) DEFAULT_CONFIG
      (ClassifyParse.completed [⟨[]⟩] []) ClassifyParse.timedOut
      ExtractParse.timedOut (ExtractParse.dataError "x") true false
      ⟨false, [], 0, 0, "", none⟩ ⟨true, ['a'], 1, 1, "", none⟩).2
      (by decide) (by decide)⟩

/-- C5.  A `SCANNED` document within the async cap with OCR disabled gets a
structured requires-OCR failure whose estimate has
`estimatedTimeSeconds = 10 × pageCount` and `canRunSync` exactly when the page
count is within the sync limit. -/
theorem C5_ocr_disabled_estimate (buffer : List Nat) (config : PipelineConfig)
    (clsParse : ClassifyParse) (extParse : ExtractParse) (mOk : Bool)
    (ocrRun : OCRResult)
    (hvalid : (validatePDF buffer config).valid = true)
    (htype : (classifyPDF config clsParse).type = PDFClassification.SCANNED)
    (hcap : (classifyPDF config clsParse).pageCount ≤ config.maxPagesScannedAsync)
    (hocr : config.ocrEnabled = false) :
    (extractPDFText buffer config clsParse extParse mOk ocrRun =
      { success := false, text := [],
        pageCount := (classifyPDF config clsParse).pageCount,
        source := Src.pdf2json, classification := PDFClassification.SCANNED,
        userMessage := MSG_SCANNED_OCR_REQUIRED,
        requiresOCR := some true,
        ocrEstimate := some
          (estimateOCR (classifyPDF config clsParse).pageCount config),
        extractionStatus := some ExtractionStatus.REQUIRES_OCR })
    ∧ (estimateOCR (classifyPDF config clsParse).pageCount
        config).estimatedTimeSeconds = 10 * (classifyPDF config clsParse).pageCount
    ∧ ((estimateOCR (classifyPDF config clsParse).pageCount config).canRunSync
        = true ↔
        (classifyPDF config clsParse).pageCount ≤ config.maxPagesScannedSync) := by
  refine ⟨?_, by simp [estimateOCR, Nat.mul_comm], by simp [estimateOCR]⟩
  simp only [extractPDFText, hvalid, not_true_eq_false, if_false,
    Bool.false_eq_true]
  split
  · rename_i heq; rw [heq] at htype; exact absurd htype (by simp)
  · rename_i heq; rw [heq] at htype; exact absurd htype (by simp)
  · rw [if_neg (by omega), if_pos (by simp [hocr])]
  · rename_i heq; rw [heq] at htype; exact absurd htype (by simp)
  · rename_i heq; rw [heq] at htype; exact absurd htype (by simp)

set_option maxRecDepth 10000 in
/-- Witness for C5: the spec's scenario — a 10-page all-image document with
OCR disabled returns `requiresOCR = true`, `estimatedTimeSeconds = 100` and
`canRunSync = true`. -/
theorem C5_witness :
    ((validatePDF pdfMagic DEFAULT_CONFIG).valid = true)
    ∧ ((classifyPDF DEFAULT_CONFIG
        (ClassifyParse.completed (List.replicate 10 ⟨[]⟩) [])).type =
        PDFClassification.SCANNED)
    ∧ (extractPDFText pdfMagic DEFAULT_CONFIG
        (ClassifyParse.completed (List.replicate 10 ⟨[]⟩) [])
        ExtractParse.timedOut true ⟨false, [], 0, 0, "", none⟩ =
      { success := false, text := [], pageCount := 10,
        source := Src.pdf2json, classification := PDFClassification.SCANNED,
        userMessage := MSG_SCANNED_OCR_REQUIRED,
        requiresOCR := some true,
        ocrEstimate := some (estimateOCR 10 DEFAULT_CONFIG),
        extractionStatus := some ExtractionStatus.REQUIRES_OCR })
    ∧ (estimateOCR 10 DEFAULT_CONFIG).estimatedTimeSeconds = 100
    ∧ (estimateOCR 10 DEFAULT_CONFIG).canRunSync = true :=
  ⟨by decide, by decide,
   by
    have := (C5_ocr_disabled_estimate pdfMagic DEFAULT_CONFIG
      (ClassifyParse.completed (List.replicate 10 ⟨[]⟩) [])
      ExtractParse.timedOut true ⟨false, [], 0, 0, "", none⟩
      (by decide) (by decide) (by decide) (by decide)).1
    rw [this]
    have hpc : (classifyPDF DEFAULT_CONFIG
        (ClassifyParse.completed (List.replicate 10 ⟨[]⟩) [])).pageCount = 10 := by
      decide
    rw [hpc],
   by decide, by decide⟩

theorem ocrLoop_eq (timeoutBefore : Nat → Bool) (i : Nat)
    (pages : List PageOCROutcome) :
    ocrLoop timeoutBefore i pages =
      ((attemptedPages timeoutBefore i pages).map pagePlaceholder,
       ((attemptedPages timeoutBefore i pages).filter isRecognized).length) := by
  induction pages generalizing i with
  | nil => rfl
  | cons p rest ih =>
      rw [ocrLoop, attemptedPages]
      by_cases ht : timeoutBefore i
      · simp [ht]
      · simp only [ht, if_false, Bool.false_eq_true, ih (i + 1)]
        cases p <;> simp [pagePlaceholder, isRecognized]

theorem attemptedPages_length_congr (timeoutBefore : Nat → Bool) :
    ∀ (i : Nat) (pages pages₂ : List PageOCROutcome),
      pages.length = pages₂.length →
      (attemptedPages timeoutBefore i pages).length =
        (attemptedPages timeoutBefore i pages₂).length := by
  intro i pages
  induction pages generalizing i with
  | nil =>
      intro pages₂ h
      have : pages₂ = [] := by
        cases pages₂
        · rfl
        · simp at h
      subst this; rfl
  | cons p rest ih =>
      intro pages₂ h
      cases pages₂ with
      | nil => simp at h
      | cons q rest₂ =>
          simp only [List.length_cons] at h
          rw [attemptedPages, attemptedPages]
          by_cases ht : timeoutBefore i
          · simp [ht]
          · simp only [ht, if_false, Bool.false_eq_true, List.length_cons]
            rw [ih (i + 1) rest₂ (by omega)]

/-- C3 (amended).  When the render succeeds, the page count is within the OCR
limit and the worker initializes, the returned result has `success = true`
regardless of whether any page produced text; `pagesProcessed` counts the
successfully recognized pages among those attempted before the total timeout;
a failed or contentless page contributes an empty-string placeholder and does
not stop the loop (which pages are attempted depends only on the timeout
oracle and the page count, never on earlier pages' outcomes). -/
theorem C3_ocr_partial_output (pages : List PageOCROutcome)
    (timeoutBefore : Nat → Bool) (config : OCRConfig)
    (hcap : pages.length ≤ config.maxPages) :
    ((performOCR (some pages) true timeoutBefore config).success = true)
    ∧ ((performOCR (some pages) true timeoutBefore config).pageCount = pages.length)
    ∧ ((performOCR (some pages) true timeoutBefore config).pagesProcessed =
        ((attemptedPages timeoutBefore 0 pages).filter isRecognized).length)
    ∧ ((performOCR (some pages) true timeoutBefore config).text =
        jsTrim (List.intercalate ['\n', '\n']
          ((attemptedPages timeoutBefore 0 pages).map pagePlaceholder)))
    ∧ (∀ p ∈ attemptedPages timeoutBefore 0 pages,
        isRecognized p = false → pagePlaceholder p = [])
    ∧ (∀ pages₂ : List PageOCROutcome, pages₂.length = pages.length →
        (attemptedPages timeoutBefore 0 pages₂).length =
          (attemptedPages timeoutBefore 0 pages).length) := by
  have hperf : performOCR (some pages) true timeoutBefore config =
      { success := true,
        text := jsTrim (List.intercalate ['\n', '\n']
          ((attemptedPages timeoutBefore 0 pages).map pagePlaceholder)),
        pageCount := pages.length,
        pagesProcessed :=
          ((attemptedPages timeoutBefore 0 pages).filter isRecognized).length,
        userMessage := OCR_MSG_SUCCESS } := by
    rw [performOCR]
    rw [if_neg (by omega)]
    simp only [not_true_eq_false, Bool.false_eq_true, if_false, ocrLoop_eq]
  refine ⟨by rw [hperf], by rw [hperf], by rw [hperf], by rw [hperf], ?_, ?_⟩
  · intro p _ hrec
    cases p <;> simp_all [isRecognized, pagePlaceholder]
  · intro pages₂ h
    exact attemptedPages_length_congr timeoutBefore 0 pages₂ pages h

/-- Witness for C3 at a concrete run: two pages, the first recognized and the
second failed; the result is `success = true` with `pagesProcessed = 1`. -/
theorem C3_witness :
    ([PageOCROutcome.recognized ['h', 'i'], PageOCROutcome.failed].length ≤
      DEFAULT_OCR_CONFIG.maxPages)
    ∧ ((performOCR (some [PageOCROutcome.recognized ['h', 'i'],
        PageOCROutcome.failed]) true (fun _ => false)
        DEFAULT_OCR_CONFIG).success = true)
    ∧ ((performOCR (some [PageOCROutcome.recognized ['h', 'i'],
        PageOCROutcome.failed]) true (fun _ => false)
        DEFAULT_OCR_CONFIG).pagesProcessed =
      ((attemptedPages (fun _ => false) 0
        [PageOCROutcome.recognized ['h', 'i'],
         PageOCROutcome.failed]).filter isRecognized).length) :=
  ⟨by decide,
   (C3_ocr_partial_output
      [PageOCROutcome.recognized ['h', 'i'], PageOCROutcome.failed]
      (fun _ => false) DEFAULT_OCR_CONFIG (by decide)).1,
   (C3_ocr_partial_output
      [PageOCROutcome.recognized ['h', 'i'], PageOCROutcome.failed]
      (fun _ => false) DEFAULT_OCR_CONFIG (by decide)).2.2.1⟩

/-- Counterexample to C3 as stated: a run in which both pages render but both
recognitions fail returns `success = true` with `pagesProcessed = 0` and empty
text — `success` is *not* equivalent to "at least one page produced text". -/
theorem C3_counterexample :
    ((performOCR (some [PageOCROutcome.failed, PageOCROutcome.failed]) true
        (fun _ => false) DEFAULT_OCR_CONFIG).success = true)
    ∧ ((performOCR (some [PageOCROutcome.failed, PageOCROutcome.failed]) true
        (fun _ => false) DEFAULT_OCR_CONFIG).pagesProcessed = 0)
    ∧ ((performOCR (some [PageOCROutcome.failed, PageOCROutcome.failed]) true
        (fun _ => false) DEFAULT_OCR_CONFIG).text = [])
    ∧ ¬ ((performOCR (some [PageOCROutcome.failed, PageOCROutcome.failed]) true
        (fun _ => false) DEFAULT_OCR_CONFIG).success = true ↔
      0 < (performOCR (some [PageOCROutcome.failed, PageOCROutcome.failed]) true
        (fun _ => false) DEFAULT_OCR_CONFIG).pagesProcessed) := by
  refine ⟨by decide, by decide, by decide, ?_⟩
  intro h
  have := h.mp (by decide)
  have h0 : (performOCR (some [PageOCROutcome.failed, PageOCROutcome.failed]) true
      (fun _ => false) DEFAULT_OCR_CONFIG).pagesProcessed = 0 := by decide
  omega

theorem filterMap_const_none (l : List α) :
    l.filterMap (fun _ => (none : Option β)) = [] := by
  induction l <;> simp_all [List.filterMap_cons]

theorem filterMap_some_comp (f : α → β) (l : List α) :
    l.filterMap (fun x => some (f x)) = l.map f := by
  induction l <;> simp_all [List.filterMap_cons]

theorem toBatchesGo_flatten (n : Nat) :
    ∀ (fuel : Nat) (l : List α), l.length ≤ fuel →
      (toBatchesGo n fuel l).flatten = l := by
  intro fuel
  induction fuel with
  | zero =>
      intro l hl
      have : l = [] := by
        cases l
        · rfl
        · simp at hl
      subst this; rfl
  | succ fuel ih =>
      intro l hl
      cases l with
      | nil => rfl
      | cons c rest =>
          rw [toBatchesGo]
          rw [List.flatten_cons, ih]
          · exact List.take_append_drop _ _
          · simp only [List.length_drop, List.length_cons] at hl ⊢
            omega

theorem toBatches_flatten (n : Nat) : ∀ l : List α, (toBatches n l).flatten = l :=
  fun l => toBatchesGo_flatten n l.length l (Nat.le_refl _)

theorem mem_embeddedOf {embedFn : EmbedFn} {chunks : List ChunkRecord}
    {c : ChunkRecord} (h : c ∈ embeddedOf embedFn chunks) :
    ∃ e, embedFn c.content = some e ∧ c.embedding = some e := by
  rw [embeddedOf, List.mem_filterMap] at h
  obtain ⟨c₀, _, hc⟩ := h
  cases he : embedFn c₀.content with
  | none => rw [he] at hc; simp at hc
  | some e =>
      rw [he] at hc
      simp only [Option.some.injEq] at hc
      subst hc
      exact ⟨e, he, rfl⟩

theorem embedCallsOf_processBatch (embedFn : EmbedFn) (storeFn : StoreFn)
    (batch : List ChunkRecord) :
    embedCallsOf (processBatch embedFn storeFn batch).1 =
      batch.map (fun c => c.content) := by
  simp only [processBatch, embedCallsOf, List.filterMap_append,
    List.filterMap_map, Function.comp_def]
  rw [filterMap_some_comp, filterMap_const_none, List.append_nil]

theorem storeCallsOf_processBatch (embedFn : EmbedFn) (storeFn : StoreFn)
    (batch : List ChunkRecord) :
    storeCallsOf (processBatch embedFn storeFn batch).1 =
      embeddedOf embedFn batch := by
  simp only [processBatch, storeCallsOf, List.filterMap_append,
    List.filterMap_map, Function.comp_def]
  rw [filterMap_const_none, filterMap_some_comp, List.nil_append]
  simp

theorem pageEvsOf_processBatch (embedFn : EmbedFn) (storeFn : StoreFn)
    (batch : List ChunkRecord) :
    pageEvsOf (processBatch embedFn storeFn batch).1 = [] := by
  simp only [processBatch, pageEvsOf, List.filterMap_append,
    List.filterMap_map, Function.comp_def]
  simp [filterMap_const_none]

theorem processChunks_spec (embedFn : EmbedFn) (storeFn : StoreFn)
    (n : Nat) (chunks : List ChunkRecord) :
    embedCallsOf (processChunks embedFn storeFn n chunks).1 =
        chunks.map (fun c => c.content)
    ∧ storeCallsOf (processChunks embedFn storeFn n chunks).1 =
        embeddedOf embedFn chunks
    ∧ pageEvsOf (processChunks embedFn storeFn n chunks).1 = []
    ∧ (processChunks embedFn storeFn n chunks).2 =
        ((embeddedOf embedFn chunks).filter fun c => storeFn c).length := by
  have key : ∀ bs : List (List ChunkRecord),
      embedCallsOf ((bs.map fun b => (processBatch embedFn storeFn b).1).flatten) =
          bs.flatten.map (fun c => c.content)
      ∧ storeCallsOf ((bs.map fun b => (processBatch embedFn storeFn b).1).flatten) =
          embeddedOf embedFn bs.flatten
      ∧ pageEvsOf ((bs.map fun b => (processBatch embedFn storeFn b).1).flatten) = []
      ∧ (bs.map fun b => (processBatch embedFn storeFn b).2).sum =
          ((embeddedOf embedFn bs.flatten).filter fun c => storeFn c).length := by
    intro bs
    induction bs with
    | nil => exact ⟨rfl, rfl, rfl, rfl⟩
    | cons b bs ih =>
        obtain ⟨ih1, ih2, ih3, ih4⟩ := ih
        refine ⟨?_, ?_, ?_, ?_⟩
        · simp only [List.map_cons, List.flatten_cons, embedCallsOf,
            List.filterMap_append]
          rw [← embedCallsOf, ← embedCallsOf, embedCallsOf_processBatch, ih1,
            ← List.map_append]
        · simp only [List.map_cons, List.flatten_cons, storeCallsOf,
            List.filterMap_append]
          rw [← storeCallsOf, ← storeCallsOf, storeCallsOf_processBatch, ih2,
            embeddedOf, embeddedOf, embeddedOf, ← List.filterMap_append]
        · simp only [List.map_cons, List.flatten_cons, pageEvsOf,
            List.filterMap_append]
          rw [← pageEvsOf, ← pageEvsOf, pageEvsOf_processBatch, ih3]
          rfl
        · simp only [List.map_cons, List.sum_cons, ih4, List.flatten_cons,
            embeddedOf, List.filterMap_append, List.filter_append,
            List.length_append]
          rfl
  have h := key (toBatches n chunks)
  rw [toBatches_flatten] at h
  simp only [processChunks, List.map_map, Function.comp_def]
  exact h

theorem embedCallsOf_page_cons (p : PageText) (evs : List VecEvent) :
    embedCallsOf (VecEvent.pageEv p :: evs) = embedCallsOf evs := by
  simp [embedCallsOf, List.filterMap_cons]

theorem storeCallsOf_page_cons (p : PageText) (evs : List VecEvent) :
    storeCallsOf (VecEvent.pageEv p :: evs) = storeCallsOf evs := by
  simp [storeCallsOf, List.filterMap_cons]

theorem pageEvsOf_page_cons (p : PageText) (evs : List VecEvent) :
    pageEvsOf (VecEvent.pageEv p :: evs) = p :: pageEvsOf evs := by
  simp [pageEvsOf, List.filterMap_cons]

theorem embedCallsOf_append (a b : List VecEvent) :
    embedCallsOf (a ++ b) = embedCallsOf a ++ embedCallsOf b := by
  simp [embedCallsOf, List.filterMap_append]

theorem storeCallsOf_append (a b : List VecEvent) :
    storeCallsOf (a ++ b) = storeCallsOf a ++ storeCallsOf b := by
  simp [storeCallsOf, List.filterMap_append]

theorem pageEvsOf_append (a b : List VecEvent) :
    pageEvsOf (a ++ b) = pageEvsOf a ++ pageEvsOf b := by
  simp [pageEvsOf, List.filterMap_append]

theorem vecLoop_spec (splitter : Splitter) (embedFn : EmbedFn)
    (storeFn : StoreFn) (config : VectorizationConfig) (documentId : String)
    (documentName : Option String) :
    ∀ (pages : List PageText) (created embedded pp : Nat),
      created ≤ config.maxChunksPerDocument →
      VecLoopClaims embedFn storeFn config pages created embedded pp
        (vecLoop splitter embedFn storeFn config documentId documentName
          pages created embedded pp) := by
  intro pages
  induction pages with
  | nil =>
      intro created embedded pp hc
      refine ⟨?_, ?_, ?_, ?_, ?_, ?_, 0, ?_⟩ <;>
        simp [vecLoop, embedCallsOf, storeCallsOf, pageEvsOf, hc]
  | cons page rest ih =>
      intro created embedded pp hc
      rw [vecLoop]
      obtain ⟨s1, s2, s3, s4⟩ := processChunks_spec embedFn storeFn
        config.embeddingBatchSize
        (if created + (setMeta documentId documentName pp
              (chunkPage splitter page)).length > config.maxChunksPerDocument then
          (setMeta documentId documentName pp (chunkPage splitter page)).take
            ((setMeta documentId documentName pp (chunkPage splitter page)).length -
              (created + (setMeta documentId documentName pp
                (chunkPage splitter page)).length - config.maxChunksPerDocument))
        else setMeta documentId documentName pp (chunkPage splitter page))
      set chunks0 := setMeta documentId documentName pp
        (chunkPage splitter page) with hchunks0
      set max := config.maxChunksPerDocument with hmax
      set chunks1 := if created + chunks0.length > max then
          chunks0.take (chunks0.length - (created + chunks0.length - max))
        else chunks0 with hchunks1
      set created2 := if created + chunks0.length > max then max
        else created + chunks0.length with hcreated2
      set pr := processChunks embedFn storeFn config.embeddingBatchSize chunks1
        with hpr
      have F1 : chunks1.length = created2 - created := by
        rw [hchunks1, hcreated2]
        by_cases hgt : created + chunks0.length > max
        · simp only [if_pos hgt, List.length_take]
          omega
        · simp only [if_neg hgt]
          omega
      have F2 : created ≤ created2 := by
        rw [hcreated2]
        by_cases hgt : created + chunks0.length > max
        · simp only [if_pos hgt]; omega
        · simp only [if_neg hgt]; omega
      have F3 : created2 ≤ max := by
        rw [hcreated2]
        by_cases hgt : created + chunks0.length > max
        · simp only [if_pos hgt]; omega
        · simp only [if_neg hgt]; omega
      have hlenEmbed : (embedCallsOf pr.1).length = created2 - created := by
        rw [s1, List.length_map, F1]
      have hlenStore : (storeCallsOf pr.1).length ≤ (embedCallsOf pr.1).length := by
        rw [s1, s2, List.length_map, embeddedOf]
        exact Nat.le_trans (List.length_filterMap_le _ _) (Nat.le_refl _)
      have hmemStore : ∀ c ∈ storeCallsOf pr.1,
          ∃ e, embedFn c.content = some e ∧ c.embedding = some e := by
        intro c hcmem
        rw [s2] at hcmem
        exact mem_embeddedOf hcmem
      have hstored : pr.2 = ((storeCallsOf pr.1).filter fun c => storeFn c).length := by
        rw [s2, s4]
      by_cases hb : created2 ≥ max
      · simp only [if_pos hb]
        refine ⟨?_, ?_, ?_, ?_, ?_, ?_, 1, ?_, ?_, ?_, ?_⟩
        · dsimp only
          rw [embedCallsOf_page_cons, hlenEmbed]
        · dsimp only; exact F2
        · dsimp only; exact F3
        · dsimp only
          rw [embedCallsOf_page_cons, storeCallsOf_page_cons]
          exact hlenStore
        · dsimp only
          rw [storeCallsOf_page_cons, hstored]
        · dsimp only
          intro c hcmem
          rw [storeCallsOf_page_cons] at hcmem
          exact hmemStore c hcmem
        · simp
        · dsimp only
        · dsimp only
          rw [pageEvsOf_page_cons, s3]
          simp
        · exact Or.inr (by dsimp only; omega)
      · simp only [if_neg hb]
        have hc2 : created2 ≤ max := F3
        obtain ⟨i1, i2, i3, i4, i5, i6, k, hk1, hk2, hk3, hk4⟩ :=
          ih created2 (embedded + pr.2) (pp + 1) hc2
        refine ⟨?_, ?_, ?_, ?_, ?_, ?_, k + 1, ?_, ?_, ?_, ?_⟩
        · dsimp only
          rw [embedCallsOf_append, embedCallsOf_page_cons, List.length_append,
            hlenEmbed, i1]
          omega
        · dsimp only; omega
        · dsimp only; exact i3
        · dsimp only
          rw [embedCallsOf_append, embedCallsOf_page_cons,
            storeCallsOf_append, storeCallsOf_page_cons, List.length_append,
            List.length_append]
          omega
        · dsimp only
          rw [storeCallsOf_append, storeCallsOf_page_cons, List.filter_append,
            List.length_append, i5, hstored]
          omega
        · dsimp only
          intro c hcmem
          rw [storeCallsOf_append, storeCallsOf_page_cons,
            List.mem_append] at hcmem
          rcases hcmem with hcmem | hcmem
          · exact hmemStore c hcmem
          · exact i6 c hcmem
        · simp only [List.length_cons]; omega
        · dsimp only; omega
        · dsimp only
          rw [pageEvsOf_append, pageEvsOf_page_cons, s3, hk3]
          simp [List.take_succ_cons]
        · rcases hk4 with hk4 | hk4
          · exact Or.inl (by simp [hk4])
          · exact Or.inr hk4

theorem vecLoop_embedCalls_congr (splitter : Splitter)
    (config : VectorizationConfig) (documentId : String)
    (documentName : Option String) (ef₁ ef₂ : EmbedFn) (sf₁ sf₂ : StoreFn) :
    ∀ (pages : List PageText) (created e₁ e₂ pp : Nat),
      embedCallsOf (vecLoop splitter ef₁ sf₁ config documentId documentName
          pages created e₁ pp).events =
        embedCallsOf (vecLoop splitter ef₂ sf₂ config documentId documentName
          pages created e₂ pp).events
      ∧ (vecLoop splitter ef₁ sf₁ config documentId documentName
          pages created e₁ pp).chunksCreated =
        (vecLoop splitter ef₂ sf₂ config documentId documentName
          pages created e₂ pp).chunksCreated
      ∧ (vecLoop splitter ef₁ sf₁ config documentId documentName
          pages created e₁ pp).pagesProcessed =
        (vecLoop splitter ef₂ sf₂ config documentId documentName
          pages created e₂ pp).pagesProcessed := by
  intro pages
  induction pages with
  | nil => exact fun _ _ _ _ => ⟨rfl, rfl, rfl⟩
  | cons page rest ih =>
      intro created e₁ e₂ pp
      rw [vecLoop, vecLoop]
      obtain ⟨t1, -, -, -⟩ := processChunks_spec ef₁ sf₁
        config.embeddingBatchSize
        (if created + (setMeta documentId documentName pp
              (chunkPage splitter page)).length > config.maxChunksPerDocument then
          (setMeta documentId documentName pp (chunkPage splitter page)).take
            ((setMeta documentId documentName pp (chunkPage splitter page)).length -
              (created + (setMeta documentId documentName pp
                (chunkPage splitter page)).length - config.maxChunksPerDocument))
        else setMeta documentId documentName pp (chunkPage splitter page))
      obtain ⟨t2, -, -, -⟩ := processChunks_spec ef₂ sf₂
        config.embeddingBatchSize
        (if created + (setMeta documentId documentName pp
              (chunkPage splitter page)).length > config.maxChunksPerDocument then
          (setMeta documentId documentName pp (chunkPage splitter page)).take
            ((setMeta documentId documentName pp (chunkPage splitter page)).length -
              (created + (setMeta documentId documentName pp
                (chunkPage splitter page)).length - config.maxChunksPerDocument))
        else setMeta documentId documentName pp (chunkPage splitter page))
      set chunks0 := setMeta documentId documentName pp
        (chunkPage splitter page) with hchunks0
      set max := config.maxChunksPerDocument with hmax
      set chunks1 := if created + chunks0.length > max then
          chunks0.take (chunks0.length - (created + chunks0.length - max))
        else chunks0 with hchunks1
      set created2 := if created + chunks0.length > max then max
        else created + chunks0.length with hcreated2
      by_cases hb : created2 ≥ max
      · simp only [if_pos hb]
        refine ⟨?_, by trivial, by trivial⟩
        dsimp only
        rw [embedCallsOf_page_cons, embedCallsOf_page_cons, t1, t2]
      · simp only [if_neg hb]
        obtain ⟨j1, j2, j3⟩ := ih created2
          (e₁ + (processChunks ef₁ sf₁ config.embeddingBatchSize chunks1).2)
          (e₂ + (processChunks ef₂ sf₂ config.embeddingBatchSize chunks1).2)
          (pp + 1)
        refine ⟨?_, j2, j3⟩
        dsimp only
        rw [embedCallsOf_append, embedCallsOf_append, embedCallsOf_page_cons,
          embedCallsOf_page_cons, t1, t2, j1]

/-- C8.  Every run creates, embeds and stores at most
`maxChunksPerDocument` chunks: the number of embed calls, the number of store
calls and the reported `totalChunks` are all bounded by the budget, and the
pages entered by the loop form a prefix of the split pages that is cut short
only when the budget has been reached (chunks beyond the cap on the budget
page were discarded before any embed call, and no later page is entered). -/
theorem C8_chunk_budget (text : List Char) (documentId : String) (source : Src)
    (splitter : Splitter) (embedFn : EmbedFn) (storeFn : StoreFn)
    (config : VectorizationConfig) (documentName : Option String) :
    ((embedCallsOf (vectorizeRun text documentId source splitter embedFn
        storeFn config documentName).2.events).length ≤
      config.maxChunksPerDocument)
    ∧ ((storeCallsOf (vectorizeRun text documentId source splitter embedFn
        storeFn config documentName).2.events).length ≤
      config.maxChunksPerDocument)
    ∧ ((vectorizeIncrementally text documentId source splitter embedFn
        storeFn config documentName).totalChunks ≤ config.maxChunksPerDocument)
    ∧ (∃ k, k ≤ (splitIntoPages source text).length
        ∧ (vectorizeRun text documentId source splitter embedFn storeFn config
            documentName).2.pagesProcessed = k
        ∧ pageEvsOf (vectorizeRun text documentId source splitter embedFn
            storeFn config documentName).2.events =
          (splitIntoPages source text).take k
        ∧ (k = (splitIntoPages source text).length
            ∨ (vectorizeRun text documentId source splitter embedFn storeFn
                config documentName).2.chunksCreated =
              config.maxChunksPerDocument)) := by
  have hrun : (vectorizeRun text documentId source splitter embedFn storeFn
      config documentName).2 =
      vecLoop splitter embedFn storeFn config documentId documentName
        (splitIntoPages source text) 0 0 0 := rfl
  have htot : (vectorizeIncrementally text documentId source splitter embedFn
      storeFn config documentName).totalChunks =
      (vecLoop splitter embedFn storeFn config documentId documentName
        (splitIntoPages source text) 0 0 0).chunksEmbedded := rfl
  obtain ⟨j1, j2, j3, j4, j5, j6, k, hk1, hk2, hk3, hk4⟩ :=
    vecLoop_spec splitter embedFn storeFn config documentId documentName
      (splitIntoPages source text) 0 0 0 (Nat.zero_le _)
  rw [hrun, htot]
  refine ⟨by omega, by omega, ?_, k, hk1, by omega, hk3, hk4⟩
  have hfil : (((storeCallsOf (vecLoop splitter embedFn storeFn config
      documentId documentName (splitIntoPages source text) 0 0 0).events).filter
        fun c => storeFn c).length) ≤
      ((storeCallsOf (vecLoop splitter embedFn storeFn config documentId
        documentName (splitIntoPages source text) 0 0 0).events).length) :=
    List.length_filter_le _ _
  omega

/-- C9 (amended).  A chunk whose embed call returns `null` is dropped: it is
never passed to the store callback (every stored chunk carries the embedding
its content successfully produced), the batch and the document continue (the
sequence of embed calls does not depend on the embed/store outcomes), and the
final result reports `totalChunks` equal to the number of chunks successfully
embedded *and* stored, with `success = true` exactly when that number is
positive — not unconditionally, as the claim states. -/
theorem C9_null_embeddings_dropped (text : List Char) (documentId : String)
    (source : Src) (splitter : Splitter) (embedFn : EmbedFn)
    (storeFn : StoreFn) (config : VectorizationConfig)
    (documentName : Option String) :
    ((vectorizeIncrementally text documentId source splitter embedFn storeFn
        config documentName).totalChunks =
      ((storeCallsOf (vectorizeRun text documentId source splitter embedFn
        storeFn config documentName).2.events).filter
          fun c => storeFn c).length)
    ∧ ((vectorizeIncrementally text documentId source splitter embedFn storeFn
        config documentName).success = true ↔
      0 < (vectorizeIncrementally text documentId source splitter embedFn
        storeFn config documentName).totalChunks)
    ∧ (∀ c ∈ storeCallsOf (vectorizeRun text documentId source splitter
        embedFn storeFn config documentName).2.events,
        ∃ e, embedFn c.content = some e ∧ c.embedding = some e)
    ∧ (∀ (embedFn' : EmbedFn) (storeFn' : StoreFn),
        embedCallsOf (vectorizeRun text documentId source splitter embedFn'
          storeFn' config documentName).2.events =
        embedCallsOf (vectorizeRun text documentId source splitter embedFn
          storeFn config documentName).2.events) := by
  have hrun : (vectorizeRun text documentId source splitter embedFn storeFn
      config documentName).2 =
      vecLoop splitter embedFn storeFn config documentId documentName
        (splitIntoPages source text) 0 0 0 := rfl
  have htot : (vectorizeIncrementally text documentId source splitter embedFn
      storeFn config documentName).totalChunks =
      (vectorizeRun text documentId source splitter embedFn storeFn
        config documentName).2.chunksEmbedded := rfl
  obtain ⟨j1, j2, j3, j4, j5, j6, k, hks⟩ :=
    vecLoop_spec splitter embedFn storeFn config documentId documentName
      (splitIntoPages source text) 0 0 0 (Nat.zero_le _)
  refine ⟨?_, ?_, ?_, ?_⟩
  · rw [htot, hrun]
    omega
  · have hsucc : (vectorizeIncrementally text documentId source splitter
        embedFn storeFn config documentName).success =
        decide (0 < (vectorizeRun text documentId source splitter embedFn
          storeFn config documentName).2.chunksEmbedded) := rfl
    rw [hsucc, htot]
    simp
  · rw [hrun]
    exact j6
  · intro embedFn' storeFn'
    have h := (vecLoop_embedCalls_congr splitter config documentId documentName
      embedFn' embedFn storeFn' storeFn (splitIntoPages source text) 0 0 0 0).1
    exact h

set_option maxRecDepth 20000 in
/-- Witness for C9: the spec's scenario — twelve chunks, the embed callback
returns `null` for three of them, all stores succeed; `totalChunks = 9`
(which equals the number of chunks stored) and `success = true`. -/
theorem C9_witness :
    ((vectorizeIncrementally demoVecText "doc" Src.pdf2json demoSplitter12
        demoEmbedNullOnA demoStoreTrue DEFAULT_VECTORIZATION_CONFIG
        none).totalChunks =
      ((storeCallsOf (vectorizeRun demoVecText "doc" Src.pdf2json
        demoSplitter12 demoEmbedNullOnA demoStoreTrue
        DEFAULT_VECTORIZATION_CONFIG none).2.events).filter
          fun c => demoStoreTrue c).length)
    ∧ ((vectorizeIncrementally demoVecText "doc" Src.pdf2json demoSplitter12
        demoEmbedNullOnA demoStoreTrue DEFAULT_VECTORIZATION_CONFIG
        none).totalChunks = 9)
    ∧ ((embedCallsOf (vectorizeRun demoVecText "doc" Src.pdf2json
        demoSplitter12 demoEmbedNullOnA demoStoreTrue
        DEFAULT_VECTORIZATION_CONFIG none).2.events).length = 12)
    ∧ ((vectorizeIncrementally demoVecText "doc" Src.pdf2json demoSplitter12
        demoEmbedNullOnA demoStoreTrue DEFAULT_VECTORIZATION_CONFIG
        none).success = true) :=
  ⟨(C9_null_embeddings_dropped demoVecText "doc" Src.pdf2json demoSplitter12
      demoEmbedNullOnA demoStoreTrue DEFAULT_VECTORIZATION_CONFIG none).1,
   by decide, by decide,
   (C9_null_embeddings_dropped demoVecText "doc" Src.pdf2json demoSplitter12
      demoEmbedNullOnA demoStoreTrue DEFAULT_VECTORIZATION_CONFIG
      none).2.1.mpr (by decide)⟩

set_option maxRecDepth 20000 in
/-- Counterexample to C9 as stated: a run in which the embed callback returns
`null` for some (here: all twelve) chunks while every store succeeds; contrary
to the claim's `success = true`, the result has `success = false` (and
`totalChunks = 0`), because no chunk was embedded and stored. -/
theorem C9_counterexample :
    ((embedCallsOf (vectorizeRun demoVecText "doc" Src.pdf2json demoSplitter12
        (fun _ => none) demoStoreTrue DEFAULT_VECTORIZATION_CONFIG
        none).2.events).length = 12)
    ∧ ((vectorizeIncrementally demoVecText "doc" Src.pdf2json demoSplitter12
        (fun _ => none) demoStoreTrue DEFAULT_VECTORIZATION_CONFIG
        none).success = false)
    ∧ ((vectorizeIncrementally demoVecText "doc" Src.pdf2json demoSplitter12
        (fun _ => none) demoStoreTrue DEFAULT_VECTORIZATION_CONFIG
        none).totalChunks = 0) :=
  ⟨by decide, by decide, by decide⟩

theorem enumFrom_pairwise_fst_lt (l : List α) :
    ∀ n, (List.enumFrom n l).Pairwise (fun a b => a.1 < b.1) := by
  induction l with
  | nil => intro n; simp
  | cons x xs ih =>
      intro n
      rw [List.enumFrom]
      refine List.Pairwise.cons ?_ (ih (n + 1))
      intro y hy
      have := List.le_fst_of_mem_enumFrom hy
      simpa using Nat.lt_of_lt_of_le (Nat.lt_succ_self n) this

theorem numberPages_pairwise (src : Src) (parts : List (List Char)) :
    (numberPages src parts).Pairwise
      (fun a b => a.pageNumber < b.pageNumber) := by
  rw [numberPages, List.pairwise_map]
  have h := enumFrom_pairwise_fst_lt parts 0
  rw [show List.enum parts = List.enumFrom 0 parts from rfl] at *
  exact h.imp (fun hab => by dsimp only; omega)

theorem numberPages_one_le (src : Src) (parts : List (List Char)) :
    ∀ p ∈ numberPages src parts, 1 ≤ p.pageNumber := by
  intro p hp
  rw [numberPages, List.mem_map] at hp
  obtain ⟨q, -, hq⟩ := hp
  subst hq
  dsimp only
  omega

theorem packLoop_pairwise (src : Src) :
    ∀ (paras : List (List Char)) (pageNum : Nat) (cur : List Char),
      (packLoop src pageNum cur paras).Pairwise
        (fun a b => a.pageNumber < b.pageNumber)
      ∧ ∀ p ∈ packLoop src pageNum cur paras, pageNum ≤ p.pageNumber := by
  intro paras
  induction paras with
  | nil =>
      intro pageNum cur
      rw [packLoop]
      split
      · refine ⟨List.pairwise_singleton _ _, ?_⟩
        intro p hp
        simp only [List.mem_singleton] at hp
        subst hp
        exact Nat.le_refl _
      · exact ⟨List.Pairwise.nil, by intro p hp; simp at hp⟩
  | cons para rest ih =>
      intro pageNum cur
      rw [packLoop]
      split
      · obtain ⟨ih1, ih2⟩ := ih (pageNum + 1) para
        refine ⟨List.Pairwise.cons ?_ ih1, ?_⟩
        · intro q hq
          have := ih2 q hq
          dsimp only
          omega
        · intro p hp
          rcases List.mem_cons.mp hp with hp | hp
          · subst hp; exact Nat.le_refl _
          · have := ih2 p hp; omega
      · exact ih pageNum _

theorem dropShort_pairwise {ps : List PageText}
    (h : ps.Pairwise (fun a b => a.pageNumber < b.pageNumber)) :
    (dropShort ps).Pairwise (fun a b => a.pageNumber < b.pageNumber) :=
  h.filter _

theorem mem_dropShort {ps : List PageText} {p : PageText}
    (h : p ∈ dropShort ps) : p ∈ ps := List.mem_of_mem_filter h

/-- C6 (amended).  For every text blob and every source, the page numbers
produced by `splitIntoPages` are all ≥ 1 and strictly increasing under all
four strategies — but gaps are possible (see the counterexample): dropping a
short page after numbering removes its number from the sequence. -/
theorem C6_page_numbers_increasing (src : Src) (text : List Char) :
    (pageNumbers (splitIntoPages src text)).Pairwise (· < ·)
    ∧ ∀ p ∈ splitIntoPages src text, 1 ≤ p.pageNumber := by
  have goal : (splitIntoPages src text).Pairwise
        (fun a b => a.pageNumber < b.pageNumber)
      ∧ ∀ p ∈ splitIntoPages src text, 1 ≤ p.pageNumber := by
    rw [splitIntoPages]
    split
    · exact ⟨dropShort_pairwise (numberPages_pairwise src _),
        fun p hp => numberPages_one_le src _ p (mem_dropShort hp)⟩
    · split
      · exact ⟨dropShort_pairwise (numberPages_pairwise src _),
          fun p hp => numberPages_one_le src _ p (mem_dropShort hp)⟩
      · split
        · exact ⟨dropShort_pairwise (numberPages_pairwise src _),
            fun p hp => numberPages_one_le src _ p (mem_dropShort hp)⟩
        · split
          · refine ⟨dropShort_pairwise (List.pairwise_singleton _ _), ?_⟩
            intro p hp
            have := mem_dropShort hp
            simp only [List.mem_singleton] at this
            subst this
            exact Nat.le_refl _
          · obtain ⟨h1, h2⟩ := packLoop_pairwise src (splitNN2 text) 1 []
            exact ⟨dropShort_pairwise h1,
              fun p hp => h2 p (mem_dropShort hp)⟩
  refine ⟨?_, goal.2⟩
  rw [pageNumbers, List.pairwise_map]
  exact goal.1

/-- Counterexample to C6 as stated: a form-feed-separated document whose
middle page is short yields page numbers `[1, 3]` — strictly increasing but
with a gap, so consecutive records do not differ by exactly 1. -/
theorem C6_counterexample :
    pageNumbers (splitIntoPages Src.pdf2json
      (List.replicate 16 'A' ++ ['\x0c', 'x', '\x0c'] ++ List.replicate 16 'B'))
      = [1, 3]
    ∧ consecNums (pageNumbers (splitIntoPages Src.pdf2json
        (List.replicate 16 'A' ++ ['\x0c', 'x', '\x0c'] ++
          List.replicate 16 'B'))) = false :=
  ⟨by decide, by decide⟩

/-- Witness for C6 at a concrete input: the first page produced for the demo
OCR text has page number ≥ 1, and the page-number sequence is pairwise
increasing. -/
theorem C6_witness :
    ((pageNumbers (splitIntoPages Src.ocr demoSplitText)).Pairwise (· < ·))
    ∧ 1 ≤ (PageText.mk 1 (List.replicate 16 'A') Src.ocr).pageNumber :=
  ⟨(C6_page_numbers_increasing Src.ocr demoSplitText).1,
   (C6_page_numbers_increasing Src.ocr demoSplitText).2
     ⟨1, List.replicate 16 'A', Src.ocr⟩ (by decide)⟩

/-- C7 (amended).  The splitter's actual strategy order: for OCR sources,
runs of 3+ newlines are tried *first* and used when they produce more than one
part; then explicit form feeds; then textual page-break markers; then the
fallback (single pseudo-page for texts up to 3000 characters, greedy paragraph
packing above); and every surviving page has trimmed text of *more than* 10
characters (a page of exactly 10 trimmed characters is dropped). -/
theorem C7_strategy_order (src : Src) (text : List Char) :
    (src = Src.ocr → (splitNN3 text).length > 1 →
      splitIntoPages src text = dropShort (numberPages src (splitNN3 text)))
    ∧ (¬ (src = Src.ocr ∧ (splitNN3 text).length > 1) →
      text.contains '\x0c' = true →
      splitIntoPages src text =
        dropShort (numberPages src (text.splitOn '\x0c')))
    ∧ (¬ (src = Src.ocr ∧ (splitNN3 text).length > 1) →
      text.contains '\x0c' = false → hasPageBreak text = true →
      splitIntoPages src text =
        dropShort (numberPages src (splitPageBreak text)))
    ∧ (¬ (src = Src.ocr ∧ (splitNN3 text).length > 1) →
      text.contains '\x0c' = false → hasPageBreak text = false →
      splitIntoPages src text =
        (if text.length ≤ TARGET_PAGE_SIZE then dropShort [⟨1, text, src⟩]
         else dropShort (packLoop src 1 [] (splitNN2 text))))
    ∧ (∀ p ∈ splitIntoPages src text, 10 < trimLen p.text) := by
  refine ⟨?_, ?_, ?_, ?_, ?_⟩
  · intro h1 h2
    rw [splitIntoPages, if_pos ⟨h1, h2⟩]
  · intro h1 h2
    rw [splitIntoPages, if_neg h1, if_pos h2]
  · intro h1 h2 h3
    rw [splitIntoPages, if_neg h1, if_neg (by rw [h2]; exact Bool.false_ne_true),
      if_pos h3]
  · intro h1 h2 h3
    rw [splitIntoPages, if_neg h1, if_neg (by rw [h2]; exact Bool.false_ne_true),
      if_neg (by rw [h3]; exact Bool.false_ne_true)]
  · intro p hp
    have hmem : ∀ ps : List PageText, p ∈ dropShort ps → 10 < trimLen p.text := by
      intro ps h
      have := (List.mem_filter.mp h).2
      exact of_decide_eq_true this
    rw [splitIntoPages] at hp
    split at hp
    · exact hmem _ hp
    · split at hp
      · exact hmem _ hp
      · split at hp
        · exact hmem _ hp
        · split at hp
          · exact hmem _ hp
          · exact hmem _ hp

/-- Witness for C7 at a concrete OCR text containing both a triple-newline
run and a form feed: the newline strategy is selected. -/
theorem C7_witness :
    ((splitNN3 demoSplitText).length > 1)
    ∧ (splitIntoPages Src.ocr demoSplitText =
        dropShort (numberPages Src.ocr (splitNN3 demoSplitText)))
    ∧ ((splitIntoPages Src.ocr demoSplitText).map PageText.pageNumber = [1, 2]) :=
  ⟨by decide,
   (C7_strategy_order Src.ocr demoSplitText).1 rfl (by decide),
   by decide⟩

/-- Counterexample to C7 as stated: on an OCR text containing both a form
feed and a triple-newline run, the code picks the newline strategy first,
while the claim's order (form feeds first) picks the form-feed strategy — the
outputs differ. -/
theorem C7_counterexample :
    splitIntoPages Src.ocr demoSplitText ≠
      splitIntoPagesClaimed Src.ocr demoSplitText := by
  decide

/-! ## Fixed-point analysis of `normalizeText` (claim C10) -/

theorem hasPair_tail {bad : Char → Char → Bool} {c : Char} {l : List Char}
    (h : hasPair bad (c :: l) = false) : hasPair bad l = false := by
  cases l with
  | nil => rfl
  | cons d rest =>
      rw [hasPair, Bool.or_eq_false_iff] at h
      exact h.2

theorem hasPair_cons_iff {bad : Char → Char → Bool} {t : Char} {l : List Char} :
    hasPair bad (t :: l) = false ↔
      (∀ c, l.head? = some c → bad t c = false) ∧ hasPair bad l = false := by
  cases l with
  | nil => simp [hasPair]
  | cons d rest =>
      rw [hasPair, Bool.or_eq_false_iff]
      constructor
      · rintro ⟨h1, h2⟩
        exact ⟨fun c hc => by simp only [List.head?_cons,
          Option.some.injEq] at hc; subst hc; exact h1, h2⟩
      · rintro ⟨h1, h2⟩
        exact ⟨h1 d rfl, h2⟩

theorem hasPair_suffix {bad : Char → Char → Bool} {l₁ l₂ : List Char}
    (hs : l₂ <:+ l₁) (h : hasPair bad l₁ = false) : hasPair bad l₂ = false := by
  obtain ⟨pre, hpre⟩ := hs
  induction pre generalizing l₁ with
  | nil => simpa [← hpre] using h
  | cons c pre ih =>
      have : pre ++ l₂ = pre ++ l₂ := rfl
      have hl : l₁ = c :: (pre ++ l₂) := by rw [← hpre]; rfl
      subst hl
      exact ih (hasPair_tail h) rfl

theorem hasPair_prefix {bad : Char → Char → Bool} :
    ∀ {l₂ l₁ : List Char}, l₂ <+: l₁ → hasPair bad l₁ = false →
      hasPair bad l₂ = false := by
  intro l₂
  induction l₂ with
  | nil => intro l₁ _ _; rfl
  | cons c rest ih =>
      intro l₁ hp h
      cases rest with
      | nil => rfl
      | cons d rest₂ =>
          obtain ⟨t, ht⟩ := hp
          subst ht
          rw [List.cons_append, List.cons_append] at h
          rw [hasPair, Bool.or_eq_false_iff] at h ⊢
          refine ⟨h.1, ih ⟨t, rfl⟩ h.2⟩

theorem hasPair_infix {bad : Char → Char → Bool} {l₁ l₂ : List Char}
    (hi : l₂ <:+: l₁) (h : hasPair bad l₁ = false) :
    hasPair bad l₂ = false := by
  obtain ⟨pre, post, hpp⟩ := hi
  have hsuf : l₂ ++ post <:+ l₁ := ⟨pre, by rw [← hpp, List.append_assoc]⟩
  exact hasPair_prefix ⟨post, rfl⟩ (hasPair_suffix hsuf h)

theorem hasPair_false_of_forall_fst {bad : Char → Char → Bool} {l : List Char}
    (h : ∀ c ∈ l, ∀ d, bad c d = false) : hasPair bad l = false := by
  induction l with
  | nil => rfl
  | cons c rest ih =>
      cases rest with
      | nil => rfl
      | cons d rest₂ =>
          rw [hasPair, Bool.or_eq_false_iff]
          exact ⟨h c (by simp) d,
            ih fun x hx d' => h x (List.mem_cons_of_mem c hx) d'⟩

theorem hasPair_false_of_forall_snd {bad : Char → Char → Bool} {l : List Char}
    (h : ∀ d ∈ l, ∀ c, bad c d = false) : hasPair bad l = false := by
  induction l with
  | nil => rfl
  | cons c rest ih =>
      cases rest with
      | nil => rfl
      | cons d rest₂ =>
          rw [hasPair, Bool.or_eq_false_iff]
          exact ⟨h d (by simp) c,
            ih fun x hx c' => h x (List.mem_cons_of_mem c hx) c'⟩

theorem hasPair_append_cons {bad : Char → Char → Bool} {xs ys : List Char}
    {t : Char} (hxs : hasPair bad xs = false)
    (hcons : hasPair bad (t :: ys) = false)
    (hjun : ∀ x, xs.getLast? = some x → bad x t = false) :
    hasPair bad (xs ++ t :: ys) = false := by
  induction xs with
  | nil => simpa using hcons
  | cons c rest ih =>
      rw [List.cons_append]
      rw [hasPair_cons_iff]
      constructor
      · intro d hd
        cases rest with
        | nil =>
            simp only [List.nil_append, List.head?_cons,
              Option.some.injEq] at hd
            subst hd
            exact hjun c rfl
        | cons e rest₂ =>
            simp only [List.cons_append, List.head?_cons,
              Option.some.injEq] at hd
            subst hd
            exact (hasPair_cons_iff.mp hxs).1 e rfl
      · exact ih (hasPair_tail hxs)
          (fun x hx => hjun x (by
            cases rest with
            | nil => simp at hx
            | cons e rest₂ => simpa using hx))

theorem head?_dropWhile_not {p : Char → Bool} {l : List Char} {c : Char}
    (h : (l.dropWhile p).head? = some c) : p c = false := by
  induction l with
  | nil => simp [List.dropWhile] at h
  | cons d rest ih =>
      rw [List.dropWhile] at h
      cases hp : p d with
      | true => simp only [hp] at h; exact ih h
      | false =>
          simp only [hp, List.head?_cons, Option.some.injEq] at h
          subst h
          exact hp

theorem dropWhile_eq_self_of_head {p : Char → Bool} {l : List Char}
    (h : ∀ c, l.head? = some c → p c = false) : l.dropWhile p = l := by
  cases l with
  | nil => rfl
  | cons c rest =>
      rw [List.dropWhile]
      simp only [h c rfl]

theorem dropWhile_trim_within (p : Char → Bool) (l : List Char) :
    ((l.dropWhile p).reverse.dropWhile p).reverse <:+: l := by
  have h1 : l.dropWhile p <:+ l := List.dropWhile_suffix p
  have h2 : (l.dropWhile p).reverse.dropWhile p <:+ (l.dropWhile p).reverse :=
    List.dropWhile_suffix p
  have h3 : ((l.dropWhile p).reverse.dropWhile p).reverse <+: l.dropWhile p := by
    have h4 := List.reverse_prefix.mpr h2
    rwa [List.reverse_reverse] at h4
  exact h3.isInfix.trans h1.isInfix

theorem dropWhile_trim_front (p : Char → Bool) (l : List Char) :
    ((l.dropWhile p).reverse.dropWhile p).reverse <+: l.dropWhile p := by
  have h2 : (l.dropWhile p).reverse.dropWhile p <:+ (l.dropWhile p).reverse :=
    List.dropWhile_suffix p
  have h4 := List.reverse_prefix.mpr h2
  rwa [List.reverse_reverse] at h4

theorem head?_of_front {l₁ l₂ : List Char} {c : Char} (hp : l₁ <+: l₂)
    (h : l₁.head? = some c) : l₂.head? = some c := by
  obtain ⟨t, ht⟩ := hp
  subst ht
  cases l₁ with
  | nil => simp at h
  | cons d rest => simpa using h

theorem dropWhile_trim_head {p : Char → Bool} {l : List Char} {c : Char}
    (h : (((l.dropWhile p).reverse.dropWhile p).reverse).head? = some c) :
    p c = false :=
  head?_dropWhile_not (head?_of_front (dropWhile_trim_front p l) h)

theorem dropWhile_trim_getLast {p : Char → Bool} {l : List Char} {c : Char}
    (h : (((l.dropWhile p).reverse.dropWhile p).reverse).getLast? = some c) :
    p c = false := by
  rw [List.getLast?_eq_head?_reverse, List.reverse_reverse] at h
  exact head?_dropWhile_not h

theorem trimSpaces_within (l : List Char) : trimSpaces l <:+: l :=
  dropWhile_trim_within _ l

theorem jsTrim_within (l : List Char) : jsTrim l <:+: l :=
  dropWhile_trim_within _ l

theorem trimSpaces_head_ne_space {l : List Char} {c : Char}
    (h : (trimSpaces l).head? = some c) : (c = ' ') = False := by
  have := dropWhile_trim_head (p := fun c => decide (c = ' ')) h
  simpa using this

theorem trimSpaces_getLast_ne_space {l : List Char} {c : Char}
    (h : (trimSpaces l).getLast? = some c) : (c = ' ') = False := by
  have := dropWhile_trim_getLast (p := fun c => decide (c = ' ')) h
  simpa using this

theorem jsTrim_head_not_ws {l : List Char} {c : Char}
    (h : (jsTrim l).head? = some c) : isWs c = false :=
  dropWhile_trim_head (p := isWs) h

theorem jsTrim_getLast_not_ws {l : List Char} {c : Char}
    (h : (jsTrim l).getLast? = some c) : isWs c = false :=
  dropWhile_trim_getLast (p := isWs) h

theorem dropWhile_trim_id {p : Char → Bool} {l : List Char}
    (h1 : ∀ c, l.head? = some c → p c = false)
    (h2 : ∀ c, l.getLast? = some c → p c = false) :
    ((l.dropWhile p).reverse.dropWhile p).reverse = l := by
  rw [dropWhile_eq_self_of_head h1]
  rw [dropWhile_eq_self_of_head (fun c hc => h2 c (by
    rwa [List.getLast?_eq_head?_reverse]))]
  exact List.reverse_reverse l

theorem trimSpaces_id {l : List Char}
    (h1 : ∀ c, l.head? = some c → (c = ' ') = False)
    (h2 : ∀ c, l.getLast? = some c → (c = ' ') = False) :
    trimSpaces l = l :=
  dropWhile_trim_id (fun c hc => by simpa using h1 c hc)
    (fun c hc => by simpa using h2 c hc)

theorem jsTrim_id {l : List Char}
    (h1 : ∀ c, l.head? = some c → isWs c = false)
    (h2 : ∀ c, l.getLast? = some c → isWs c = false) :
    jsTrim l = l :=
  dropWhile_trim_id h1 h2

theorem jsTrim_idem (l : List Char) : jsTrim (jsTrim l) = jsTrim l :=
  jsTrim_id (fun _ hc => jsTrim_head_not_ws hc)
    (fun _ hc => jsTrim_getLast_not_ws hc)

theorem lineTerm_ne_space {c : Char} (h : isLineTerm c = true) : (c = ' ') = False := by
  have h2 : c = '\n' ∨ c = '\r' := by simpa [isLineTerm] using h
  apply eq_false
  rcases h2 with h1 | h1 <;> subst h1 <;> decide

theorem hasCRLF_tail {c : Char} {l : List Char} (h : hasCRLF (c :: l) = false) :
    hasCRLF l = false := by
  rw [hasCRLF.eq_def] at h
  split at h
  · cases h
  · rename_i d rs hne heq
    injection heq with h1 h2
    rwa [h2]
  · rename_i heq
    simp at heq

theorem hasTripleNL_tail {c : Char} {l : List Char}
    (h : hasTripleNL (c :: l) = false) : hasTripleNL l = false := by
  rw [hasTripleNL.eq_def] at h
  split at h
  · cases h
  · rename_i d rs hne heq
    injection heq with h1 h2
    rwa [h2]
  · rename_i heq
    simp at heq

theorem replCRLF_id : ∀ {l : List Char}, hasCRLF l = false → replCRLF l = l := by
  intro l
  induction l with
  | nil => intro _; rfl
  | cons c rest ih =>
      intro h
      rw [replCRLF.eq_def]
      split
      · rename_i rs heq
        rw [heq] at h
        have ht : hasCRLF ('\r' :: '\n' :: rs) = true := rfl
        rw [ht] at h
        cases h
      · rename_i d rs hne heq
        injection heq with h1 h2
        subst h1
        subst h2
        exact congrArg (List.cons c) (ih (hasCRLF_tail h))
      · rename_i heq
        simp at heq

theorem collapseNLAux_false_id : ∀ {l : List Char}, hasTripleNL l = false →
    collapseNLAux false l = l := by
  intro l
  induction l with
  | nil => intro _; rfl
  | cons c rest ih =>
      intro h
      rw [collapseNLAux.eq_def]
      split
      · rename_i heq1 heq2
        cases heq1
      · rename_i heq1 heq2
        cases heq1
      · rename_i heq1 heq2
        cases heq1
      · rename_i rs heq1 heq2
        rw [heq2] at h
        have ht : hasTripleNL ('\n' :: '\n' :: '\n' :: rs) = true := rfl
        rw [ht] at h
        cases h
      · rename_i d rs hne heq1 heq2
        injection heq2 with h1 h2
        subst h1
        subst h2
        exact congrArg (List.cons c) (ih (hasTripleNL_tail h))
      · rename_i heq1 heq2
        simp at heq2

theorem collapseNL_id {l : List Char} (h : hasTripleNL l = false) :
    collapseNL l = l :=
  collapseNLAux_false_id h

theorem collapseSpAux_true_head : ∀ {l : List Char} {c : Char},
    (collapseSpAux true l).head? = some c → isSpTab c = false := by
  intro l
  induction l with
  | nil => intro c hc; simp [collapseSpAux] at hc
  | cons d rest ih =>
      intro c hc
      by_cases hd : isSpTab d
      · rw [show collapseSpAux true (d :: rest) = collapseSpAux true rest from by
          simp [collapseSpAux, hd]] at hc
        exact ih hc
      · rw [show collapseSpAux true (d :: rest) = d :: collapseSpAux false rest from by
          simp [collapseSpAux, hd]] at hc
        simp at hc
        subst hc
        simpa using hd

theorem collapseSpAux_no_tab (b : Bool) (l : List Char) :
    '\t' ∉ collapseSpAux b l := by
  induction l generalizing b with
  | nil => cases b <;> simp [collapseSpAux]
  | cons d rest ih =>
      intro hm
      cases b
      · by_cases hd : isSpTab d
        · rw [show collapseSpAux false (d :: rest) = ' ' :: collapseSpAux true rest from by
            simp [collapseSpAux, hd]] at hm
          rcases List.mem_cons.mp hm with h1 | h1
          · exact absurd h1 (by decide)
          · exact ih true h1
        · rw [show collapseSpAux false (d :: rest) = d :: collapseSpAux false rest from by
            simp [collapseSpAux, hd]] at hm
          rcases List.mem_cons.mp hm with h1 | h1
          · subst h1
            exact hd (by decide)
          · exact ih false h1
      · by_cases hd : isSpTab d
        · rw [show collapseSpAux true (d :: rest) = collapseSpAux true rest from by
            simp [collapseSpAux, hd]] at hm
          exact ih true hm
        · rw [show collapseSpAux true (d :: rest) = d :: collapseSpAux false rest from by
            simp [collapseSpAux, hd]] at hm
          rcases List.mem_cons.mp hm with h1 | h1
          · subst h1
            exact hd (by decide)
          · exact ih false h1

theorem collapseSpAux_no_dblSpace (b : Bool) (l : List Char) :
    hasPair dblSpace (collapseSpAux b l) = false := by
  induction l generalizing b with
  | nil => cases b <;> rfl
  | cons d rest ih =>
      cases b
      · by_cases hd : isSpTab d
        · rw [show collapseSpAux false (d :: rest) = ' ' :: collapseSpAux true rest from by
            simp [collapseSpAux, hd]]
          refine hasPair_cons_iff.mpr ⟨?_, ih true⟩
          intro c hc
          have hns := collapseSpAux_true_head hc
          apply (Bool.eq_false_iff).mpr
          intro hbad
          have : c = ' ' := by simpa [dblSpace] using hbad
          rw [this] at hns
          exact absurd hns (by decide)
        · rw [show collapseSpAux false (d :: rest) = d :: collapseSpAux false rest from by
            simp [collapseSpAux, hd]]
          refine hasPair_cons_iff.mpr ⟨?_, ih false⟩
          intro c _
          have hd' : ¬(d = ' ') := fun he => hd (by simp [isSpTab, he])
          simp [dblSpace, hd']
      · by_cases hd : isSpTab d
        · rw [show collapseSpAux true (d :: rest) = collapseSpAux true rest from by
            simp [collapseSpAux, hd]]
          exact ih true
        · rw [show collapseSpAux true (d :: rest) = d :: collapseSpAux false rest from by
            simp [collapseSpAux, hd]]
          refine hasPair_cons_iff.mpr ⟨?_, ih false⟩
          intro c _
          have hd' : ¬(d = ' ') := fun he => hd (by simp [isSpTab, he])
          simp [dblSpace, hd']

theorem collapseSpAux_id : ∀ {l : List Char}, '\t' ∉ l →
    hasPair dblSpace l = false →
    (collapseSpAux false l = l ∧
      ((∀ c, l.head? = some c → (c = ' ') = False) → collapseSpAux true l = l)) := by
  intro l
  induction l with
  | nil => exact fun _ _ => ⟨rfl, fun _ => rfl⟩
  | cons d rest ih =>
      intro htab h
      have htabr : '\t' ∉ rest := fun hm => htab (List.mem_cons_of_mem _ hm)
      have hr := hasPair_tail h
      obtain ⟨ihf, iht⟩ := ih htabr hr
      by_cases hd : d = ' '
      · subst hd
        have hheadr : ∀ c, rest.head? = some c → (c = ' ') = False := by
          intro c hc
          apply eq_false
          intro he
          subst he
          have hj := (hasPair_cons_iff.mp h).1 ' ' hc
          simp [dblSpace] at hj
        constructor
        · rw [show collapseSpAux false (' ' :: rest) = ' ' :: collapseSpAux true rest from by
            simp [collapseSpAux, isSpTab]]
          rw [iht hheadr]
        · intro hh
          have := hh ' ' rfl
          simp at this
      · have hdt : ¬(d = '\t') := fun he => htab (by rw [he]; exact List.mem_cons_self _ _)
        have hsp : ¬(isSpTab d = true) := by simp [isSpTab, hd, hdt]
        constructor
        · rw [show collapseSpAux false (d :: rest) = d :: collapseSpAux false rest from by
            simp [collapseSpAux, hsp]]
          rw [ihf]
        · intro _
          rw [show collapseSpAux true (d :: rest) = d :: collapseSpAux false rest from by
            simp [collapseSpAux, hsp]]
          rw [ihf]

theorem collapseSp_id {l : List Char} (htab : '\t' ∉ l)
    (h : hasPair dblSpace l = false) : collapseSp l = l :=
  (collapseSpAux_id htab h).1

theorem exists_append_of_getLast {l : List Char} {x : Char}
    (h : l.getLast? = some x) : ∃ m, l = m ++ [x] := by
  rw [List.getLast?_eq_head?_reverse] at h
  cases hr : l.reverse with
  | nil =>
      rw [hr] at h
      simp at h
  | cons y t =>
      rw [hr] at h
      have hy : y = x := by simpa using h
      subst hy
      refine ⟨t.reverse, ?_⟩
      have h2 := congrArg List.reverse hr
      simpa using h2

theorem getLast?_append_right (xs : List Char) {ys : List Char} {c : Char}
    (h : ys.getLast? = some c) : (xs ++ ys).getLast? = some c := by
  rw [List.getLast?_eq_head?_reverse] at h ⊢
  rw [List.reverse_append]
  cases hr : ys.reverse with
  | nil =>
      rw [hr] at h
      simp at h
  | cons y t =>
      rw [hr] at h
      simpa using h

theorem hasPair_elim_junction {bad : Char → Char → Bool} {xs ys : List Char}
    {t : Char} (h : hasPair bad (xs ++ t :: ys) = false) :
    ∀ x, xs.getLast? = some x → bad x t = false := by
  intro x hx
  obtain ⟨m, hm⟩ := exists_append_of_getLast hx
  subst hm
  have hs : hasPair bad (x :: t :: ys) = false :=
    hasPair_suffix ⟨m, by simp⟩ h
  exact (hasPair_cons_iff.mp hs).1 t rfl

theorem tleGo_id : ∀ {l : List Char} (acc : List Char),
    hasPair termSpace (acc.reverse ++ l) = false →
    hasPair spaceTerm (acc.reverse ++ l) = false →
    (∀ c, (acc.reverse ++ l).head? = some c → (c = ' ') = False) →
    (∀ c, (acc.reverse ++ l).getLast? = some c → (c = ' ') = False) →
    trimLineEdgesGo acc l = acc.reverse ++ l := by
  intro l
  induction l with
  | nil =>
      intro acc hts hst hh hl
      rw [List.append_nil] at hh hl ⊢
      simp only [trimLineEdgesGo]
      exact trimSpaces_id hh hl
  | cons c rest ih =>
      intro acc hts hst hh hl
      simp only [trimLineEdgesGo]
      by_cases hc : isLineTerm c = true
      · rw [if_pos hc]
        have hxs : trimSpaces acc.reverse = acc.reverse := by
          apply trimSpaces_id
          · intro x hx
            exact hh x (head?_of_front ⟨c :: rest, rfl⟩ hx)
          · intro x hx
            have hb := hasPair_elim_junction hst x hx
            apply eq_false
            intro he
            subst he
            rw [show spaceTerm ' ' c = true from by simp [spaceTerm, hc]] at hb
            cases hb
        have hrec : trimLineEdgesGo [] rest = rest := by
          have hts_r : hasPair termSpace rest = false :=
            hasPair_suffix ⟨acc.reverse ++ [c], by simp⟩ hts
          have hst_r : hasPair spaceTerm rest = false :=
            hasPair_suffix ⟨acc.reverse ++ [c], by simp⟩ hst
          have hh_r : ∀ x, rest.head? = some x → (x = ' ') = False := by
            intro x hx
            have hb := (hasPair_cons_iff.mp
              (hasPair_suffix ⟨acc.reverse, rfl⟩ hts)).1 x hx
            apply eq_false
            intro he
            subst he
            rw [show termSpace c ' ' = true from by simp [termSpace, hc]] at hb
            cases hb
          have hl_r : ∀ x, rest.getLast? = some x → (x = ' ') = False := by
            intro x hx
            exact hl x (getLast?_append_right acc.reverse (getLast?_append_right [c] hx))
          exact ih [] hts_r hst_r hh_r hl_r
        rw [hxs, hrec]
      · rw [if_neg hc]
        have hlist : (c :: acc).reverse ++ rest = acc.reverse ++ c :: rest := by simp
        have h1 : hasPair termSpace ((c :: acc).reverse ++ rest) = false := by
          rw [hlist]; exact hts
        have h2 : hasPair spaceTerm ((c :: acc).reverse ++ rest) = false := by
          rw [hlist]; exact hst
        have h3 : ∀ x, ((c :: acc).reverse ++ rest).head? = some x → (x = ' ') = False := by
          rw [hlist]; exact hh
        have h4 : ∀ x, ((c :: acc).reverse ++ rest).getLast? = some x → (x = ' ') = False := by
          rw [hlist]; exact hl
        rw [ih (c :: acc) h1 h2 h3 h4, hlist]

theorem trimLineEdges_id {l : List Char}
    (hts : hasPair termSpace l = false) (hst : hasPair spaceTerm l = false)
    (hh : ∀ c, l.head? = some c → (c = ' ') = False)
    (hl : ∀ c, l.getLast? = some c → (c = ' ') = False) :
    trimLineEdges l = l :=
  tleGo_id [] hts hst hh hl

theorem tleGo_sublist : ∀ {l : List Char} (acc : List Char),
    List.Sublist (trimLineEdgesGo acc l) (acc.reverse ++ l) := by
  intro l
  induction l with
  | nil =>
      intro acc
      simp only [trimLineEdgesGo, List.append_nil]
      exact (trimSpaces_within acc.reverse).sublist
  | cons c rest ih =>
      intro acc
      simp only [trimLineEdgesGo]
      by_cases hc : isLineTerm c = true
      · rw [if_pos hc]
        exact List.Sublist.append (trimSpaces_within acc.reverse).sublist
          (List.Sublist.cons₂ c (ih []))
      · rw [if_neg hc]
        have hlist : (c :: acc).reverse ++ rest = acc.reverse ++ c :: rest := by simp
        have h5 := ih (c :: acc)
        rwa [hlist] at h5

theorem trimLineEdges_sublist (l : List Char) : List.Sublist (trimLineEdges l) l :=
  tleGo_sublist []

theorem tleGo_head_ne_space : ∀ {l : List Char} (acc : List Char) {c : Char},
    (trimLineEdgesGo acc l).head? = some c → (c = ' ') = False := by
  intro l
  induction l with
  | nil =>
      intro acc c hc
      simp only [trimLineEdgesGo] at hc
      exact trimSpaces_head_ne_space hc
  | cons d rest ih =>
      intro acc c hc
      simp only [trimLineEdgesGo] at hc
      by_cases hd : isLineTerm d = true
      · rw [if_pos hd] at hc
        cases hx : trimSpaces acc.reverse with
        | nil =>
            rw [hx] at hc
            simp at hc
            subst hc
            exact lineTerm_ne_space hd
        | cons y t =>
            rw [hx] at hc
            simp at hc
            subst hc
            apply trimSpaces_head_ne_space (l := acc.reverse)
            rw [hx]
            rfl
      · rw [if_neg hd] at hc
        exact ih (d :: acc) hc

theorem tleGo_no_dblSpace : ∀ {l : List Char} (acc : List Char),
    hasPair dblSpace (acc.reverse ++ l) = false →
    hasPair dblSpace (trimLineEdgesGo acc l) = false := by
  intro l
  induction l with
  | nil =>
      intro acc h
      rw [List.append_nil] at h
      simp only [trimLineEdgesGo]
      exact hasPair_infix (trimSpaces_within acc.reverse) h
  | cons c rest ih =>
      intro acc h
      simp only [trimLineEdgesGo]
      by_cases hc : isLineTerm c = true
      · rw [if_pos hc]
        have hcs : (c = ' ') = False := lineTerm_ne_space hc
        apply hasPair_append_cons
        · apply hasPair_infix (trimSpaces_within acc.reverse)
          exact hasPair_prefix ⟨c :: rest, rfl⟩ h
        · refine hasPair_cons_iff.mpr
            ⟨?_, ih [] (hasPair_suffix ⟨acc.reverse ++ [c], by simp⟩ h)⟩
          intro d _
          simp [dblSpace, hcs]
        · intro x _
          simp [dblSpace, hcs]
      · rw [if_neg hc]
        apply ih (c :: acc)
        rw [show (c :: acc).reverse ++ rest = acc.reverse ++ c :: rest from by simp]
        exact h

theorem tleGo_no_spaceTerm : ∀ {l : List Char} (acc : List Char),
    (∀ x ∈ acc, isLineTerm x = false) →
    hasPair spaceTerm (trimLineEdgesGo acc l) = false := by
  intro l
  induction l with
  | nil =>
      intro acc hacc
      simp only [trimLineEdgesGo]
      apply hasPair_false_of_forall_snd
      intro d hd x
      have hd' : d ∈ acc := by
        have hmem := (trimSpaces_within acc.reverse).sublist.subset hd
        simpa using hmem
      simp [spaceTerm, hacc d hd']
  | cons c rest ih =>
      intro acc hacc
      simp only [trimLineEdgesGo]
      by_cases hc : isLineTerm c = true
      · rw [if_pos hc]
        apply hasPair_append_cons
        · apply hasPair_false_of_forall_snd
          intro d hd x
          have hd' : d ∈ acc := by
            have hmem := (trimSpaces_within acc.reverse).sublist.subset hd
            simpa using hmem
          simp [spaceTerm, hacc d hd']
        · refine hasPair_cons_iff.mpr ⟨?_, ih [] (by intro x hx; cases hx)⟩
          intro d _
          have hcs : (c = ' ') = False := lineTerm_ne_space hc
          simp [spaceTerm, hcs]
        · intro x hx
          have hxs := trimSpaces_getLast_ne_space hx
          simp [spaceTerm, hxs]
      · rw [if_neg hc]
        apply ih (c :: acc)
        intro x hx
        rcases List.mem_cons.mp hx with h1 | h1
        · subst h1
          simpa using hc
        · exact hacc x h1

theorem tleGo_no_termSpace : ∀ {l : List Char} (acc : List Char),
    (∀ x ∈ acc, isLineTerm x = false) →
    hasPair termSpace (trimLineEdgesGo acc l) = false := by
  intro l
  induction l with
  | nil =>
      intro acc hacc
      simp only [trimLineEdgesGo]
      apply hasPair_false_of_forall_fst
      intro d hd x
      have hd' : d ∈ acc := by
        have hmem := (trimSpaces_within acc.reverse).sublist.subset hd
        simpa using hmem
      simp [termSpace, hacc d hd']
  | cons c rest ih =>
      intro acc hacc
      simp only [trimLineEdgesGo]
      by_cases hc : isLineTerm c = true
      · rw [if_pos hc]
        apply hasPair_append_cons
        · apply hasPair_false_of_forall_fst
          intro d hd x
          have hd' : d ∈ acc := by
            have hmem := (trimSpaces_within acc.reverse).sublist.subset hd
            simpa using hmem
          simp [termSpace, hacc d hd']
        · refine hasPair_cons_iff.mpr ⟨?_, ih [] (by intro x hx; cases hx)⟩
          intro d hdh
          have hds := tleGo_head_ne_space [] hdh
          simp [termSpace, hds]
        · intro x _
          have hcs : (c = ' ') = False := lineTerm_ne_space hc
          simp [termSpace, hcs]
      · rw [if_neg hc]
        apply ih (c :: acc)
        intro x hx
        rcases List.mem_cons.mp hx with h1 | h1
        · subst h1
          simpa using hc
        · exact hacc x h1

theorem trimLineEdges_no_spaceTerm (l : List Char) :
    hasPair spaceTerm (trimLineEdges l) = false :=
  tleGo_no_spaceTerm [] (by intro x hx; cases hx)

theorem trimLineEdges_no_termSpace (l : List Char) :
    hasPair termSpace (trimLineEdges l) = false :=
  tleGo_no_termSpace [] (by intro x hx; cases hx)

theorem trimLineEdges_no_dblSpace {l : List Char}
    (h : hasPair dblSpace l = false) :
    hasPair dblSpace (trimLineEdges l) = false :=
  tleGo_no_dblSpace [] h

theorem normalizeText_no_tab (s : List Char) : '\t' ∉ normalizeText s := by
  show '\t' ∉ jsTrim (trimLineEdges (collapseSp (collapseNL (replCRLF s))))
  intro hm
  have h1 : '\t' ∈ trimLineEdges (collapseSp (collapseNL (replCRLF s))) :=
    (jsTrim_within _).sublist.subset hm
  have h2 : '\t' ∈ collapseSp (collapseNL (replCRLF s)) :=
    (trimLineEdges_sublist _).subset h1
  exact collapseSpAux_no_tab false _ h2

theorem normalizeText_no_dblSpace (s : List Char) :
    hasPair dblSpace (normalizeText s) = false := by
  show hasPair dblSpace
    (jsTrim (trimLineEdges (collapseSp (collapseNL (replCRLF s))))) = false
  apply hasPair_infix (jsTrim_within _)
  apply trimLineEdges_no_dblSpace
  exact collapseSpAux_no_dblSpace false _

theorem normalizeText_no_spaceTerm (s : List Char) :
    hasPair spaceTerm (normalizeText s) = false := by
  show hasPair spaceTerm
    (jsTrim (trimLineEdges (collapseSp (collapseNL (replCRLF s))))) = false
  exact hasPair_infix (jsTrim_within _) (trimLineEdges_no_spaceTerm _)

theorem normalizeText_no_termSpace (s : List Char) :
    hasPair termSpace (normalizeText s) = false := by
  show hasPair termSpace
    (jsTrim (trimLineEdges (collapseSp (collapseNL (replCRLF s))))) = false
  exact hasPair_infix (jsTrim_within _) (trimLineEdges_no_termSpace _)

theorem normalizeText_head_ne_space {s : List Char} {c : Char}
    (h : (normalizeText s).head? = some c) : (c = ' ') = False := by
  have h2 := jsTrim_head_not_ws
    (l := trimLineEdges (collapseSp (collapseNL (replCRLF s)))) h
  apply eq_false
  intro he
  subst he
  rw [show isWs ' ' = true from rfl] at h2
  cases h2

theorem normalizeText_getLast_ne_space {s : List Char} {c : Char}
    (h : (normalizeText s).getLast? = some c) : (c = ' ') = False := by
  have h2 := jsTrim_getLast_not_ws
    (l := trimLineEdges (collapseSp (collapseNL (replCRLF s)))) h
  apply eq_false
  intro he
  subst he
  rw [show isWs ' ' = true from rfl] at h2
  cases h2

/-- C10 (amended).  `normalizeText` is not idempotent in general (see
`C10_counterexample`): a `\r\r\n` in the input leaves a fresh `\r\n` pair in
the output, and per-line edge trimming can merge newline runs into a fresh
run of three or more newlines, and in either case a second application still
changes the text.  Amended claim: one application of `normalizeText` reaches
a fixed point exactly on the inputs whose normalized form contains no
carriage-return/newline pair and no run of three or more newlines — the
space/tab collapsing, the per-line edge trimming and the final trim always
stabilize in one pass, and only the two newline rewrites can fail to. -/
theorem C10_normalize_idempotent (s : List Char)
    (h1 : hasCRLF (normalizeText s) = false)
    (h2 : hasTripleNL (normalizeText s) = false) :
    normalizeText (normalizeText s) = normalizeText s := by
  show jsTrim (trimLineEdges (collapseSp (collapseNL (replCRLF (normalizeText s))))) =
    normalizeText s
  rw [replCRLF_id h1, collapseNL_id h2,
    collapseSp_id (normalizeText_no_tab s) (normalizeText_no_dblSpace s),
    trimLineEdges_id (normalizeText_no_termSpace s) (normalizeText_no_spaceTerm s)
      (fun _ hc => normalizeText_head_ne_space hc)
      (fun _ hc => normalizeText_getLast_ne_space hc)]
  exact jsTrim_idem (trimLineEdges (collapseSp (collapseNL (replCRLF s))))

/-- Witness for C10 at a concrete string: `" a  b\n\nc "` normalizes to the
stable text `"a b\n\nc"` (no CRLF pair, no triple-newline run), and a second
application of `normalizeText` leaves it unchanged. -/
theorem C10_witness :
    hasCRLF (normalizeText " a  b\n\nc ".data) = false ∧
    hasTripleNL (normalizeText " a  b\n\nc ".data) = false ∧
    normalizeText (normalizeText " a  b\n\nc ".data) =
      normalizeText " a  b\n\nc ".data :=
  ⟨by decide, by decide, C10_normalize_idempotent _ (by decide) (by decide)⟩

/-- Counterexample to C10 as stated: `normalizeText` is not idempotent.
`"a\r\r\nb"` normalizes to `"a\r\nb"` — the first `\r` hides the following
`\r\n` pair from the single left-to-right CRLF pass — and normalizing again
gives `"a\nb"`.  Likewise `"a \n\n \n\nb"` normalizes to `"a\n\n\n\nb"` —
edge trimming deletes the space between two double-newline runs only after
the newline-collapsing pass has already run — and normalizing again gives
`"a\n\nb"`. -/
theorem C10_counterexample :
    normalizeText (normalizeText "a\r\r\nb".data) ≠
      normalizeText "a\r\r\nb".data ∧
    normalizeText (normalizeText "a \n\n \n\nb".data) ≠
      normalizeText "a \n\n \n\nb".data :=
  ⟨by decide, by decide⟩

end RagSandbox
